import Mathlib

/-!
# docker-logger: verification of `main.go`

A shallow embedding of the single source file of the program.  Pure helper
functions (`contains`, `getEnvInt`) are Lean functions.  The two stateful
procedures, `main` and `streamLogs`, are state-passing functions over the
answers of the outside world (environment, Docker daemon, signals), which are
given as explicit arguments.  A run-time panic of Go (index or slice bounds out
of range) is an explicit result.
-/

namespace DockerLogger

/-! ## Strings and the library functions the program calls -/

/-- A Go string is a sequence of bytes; a byte is a natural number below 256. -/
abbrev GoString := List Nat

/-- A Go `error` value: `none` is `nil`, `some msg` carries the text of `err.Error()`. -/
abbrev GoError := Option GoString

/-- The bytes of an ASCII string literal of the source. -/
def ascii (s : String) : GoString := s.toList.map Char.toNat

/-- The byte `/`. -/
def slash : GoString := [47]

/-- The byte `,`. -/
def comma : Nat := 44

/-- Go slice expression `s[:12]`: the first 12 bytes, or a run-time panic
(`none`) when the string is shorter. -/
def slice12 (s : GoString) : Option GoString :=
  if 12 ≤ s.length then some (s.take 12) else none

/-- Library `strings.TrimPrefix(s, p)`: `s` without the leading `p` when `s`
starts with `p`, else `s` unchanged. -/
def stringsTrimPrefix (s p : GoString) : GoString :=
  if p.isPrefixOf s then s.drop p.length else s

/-- Library `strings.Split(s, sep)` for a one-byte separator: the pieces of `s`
between the occurrences of `sep`; one more piece than there are separators. -/
def stringsSplit (sep : Nat) : GoString → List GoString
  | [] => [[]]
  | b :: rest =>
    if b = sep then [] :: stringsSplit sep rest
    else
      match stringsSplit sep rest with
      | [] => [[b]]
      | piece :: pieces => (b :: piece) :: pieces

/-- Library `fmt.Println(a, b, ...)` on string operands: the operands separated
by one space, then a newline. -/
def println (operands : List GoString) : GoString :=
  [32].intercalate operands ++ [10]

/-- Library `fmt.Sprintf("%s/%s.log", logDir, containerName)`. -/
def sprintfLogFile (logDir containerName : GoString) : GoString :=
  logDir ++ slash ++ containerName ++ ascii ".log"

/-- Library `fmt.Printf("Logging container %s (%s) → %s\n", name, shortID, logFile)`;
the arrow is the three bytes of U+2192. -/
def printfLogging (name shortID logFile : GoString) : GoString :=
  ascii "Logging container " ++ name ++ ascii " (" ++ shortID ++ ascii ") "
    ++ [226, 134, 146] ++ ascii " " ++ logFile ++ [10]

/-! ### `fmt.Sscanf(v, "%d", &i)` -/

/-- Whether the byte is one of `0` .. `9`. -/
def isDigit (b : Nat) : Bool := 48 ≤ b && b ≤ 57

/-- Library `(*ss).SkipSpace` as `Sscanf` runs it (newlines are not spaces):
drops the leading space runes; a newline is the error "unexpected newline"
(`none`).  The space runes are those of the table of `fmt.isSpace`, matched
here by their UTF-8 encodings: U+0009, U+000B..U+000D, U+0020, U+0085, U+00A0,
U+1680, U+2000..U+200A, U+2028, U+2029, U+202F, U+205F, U+3000. -/
def skipSpace : GoString → Option GoString
  | [] => some []
  | b :: rest =>
    if b = 10 then none
    else if b = 9 ∨ b = 11 ∨ b = 12 ∨ b = 13 ∨ b = 32 then skipSpace rest
    else
      match rest with
      | [] => some [b]
      | b1 :: rest1 =>
        if b = 194 ∧ (b1 = 133 ∨ b1 = 160) then skipSpace rest1
        else
          match rest1 with
          | [] => some [b, b1]
          | b2 :: rest2 =>
            if (b = 225 ∧ b1 = 154 ∧ b2 = 128)
                ∨ (b = 226 ∧ b1 = 128 ∧ ((128 ≤ b2 ∧ b2 ≤ 138) ∨ b2 = 168 ∨ b2 = 169 ∨ b2 = 175))
                ∨ (b = 226 ∧ b1 = 129 ∧ b2 = 159)
                ∨ (b = 227 ∧ b1 = 128 ∧ b2 = 128)
            then skipSpace rest2
            else some (b :: b1 :: b2 :: rest2)

/-- The value of a run of decimal digit bytes, most significant first. -/
def digitsValue (ds : GoString) : Nat :=
  ds.foldl (fun acc d => acc * 10 + (d - 48)) 0

/-- Library `s.accept(sign)` in `(*ss).scanInt`: one leading `+` or `-` is
consumed when there is one; the result is whether it was `-`, and the rest. -/
def acceptSign : GoString → Bool × GoString
  | 45 :: r => (true, r)
  | 43 :: r => (false, r)
  | r => (false, r)

/-- Library `(*ss).scanNumber` followed by `strconv.ParseInt(tok, 10, 64)`, on
the run of digits that follows the sign: no digit is the error "expected
integer", a value outside [-2^63, 2^63) is the range error of `ParseInt`;
both are `none`. -/
def parseInt (negative : Bool) (digits : GoString) : Option Int :=
  if digits = [] then none
  else
    let x : Int := if negative then -(digitsValue digits : Int) else (digitsValue digits : Int)
    if -(2 ^ 63 : Int) ≤ x ∧ x < (2 ^ 63 : Int) then some x else none

/-- Library `(*ss).scanInt` for the verb `d` and a 64-bit `int`: the leading
spaces are skipped, then come an optional sign and the longest run of digits.
`none` is a scan error (newline, no digit, value out of range).  The limit of
2^30 runes that `Sscanf` puts on one operand is left out: the value of an
environment variable is far shorter. -/
def scanInt (v : GoString) : Option Int :=
  match skipSpace v with
  | none => none
  | some s => parseInt (acceptSign s).1 ((acceptSign s).2.takeWhile isDigit)

/-- Library `fmt.Sscanf(v, "%d", &i)` as the program uses it (the returned
count and error are dropped): the new value of `i`, which is left as it was
when the scan fails. -/
def sscanfD (v : GoString) (i : Int) : Int :=
  match scanInt v with
  | some x => x
  | none => i

/-! ## The environment -/

/-- What `os.Getenv` answers: the value of a variable, the empty string when it
is unset. -/
abbrev Env := GoString → GoString

/-- The constant `TARGET_CONTAINERS`. -/
def TARGET_CONTAINERS : GoString := ascii "TARGET_CONTAINERS"
/-- The constant `MAX_LOG_SIZE_MB`. -/
def MAX_LOG_SIZE_MB : GoString := ascii "MAX_LOG_SIZE_MB"
/-- The constant `MAX_BACKUPS`. -/
def MAX_BACKUPS : GoString := ascii "MAX_BACKUPS"
/-- The constant `MAX_AGE_DAYS`. -/
def MAX_AGE_DAYS : GoString := ascii "MAX_AGE_DAYS"
/-- The constant `LOG_DIR`. -/
def LOG_DIR : GoString := ascii "LOG_DIR"

/-- Source `getEnvInt(key, def)`. -/
def getEnvInt (env : Env) (key : GoString) (dflt : Int) : Int :=
  let v := env key
  if v ≠ [] then
    let i := sscanfD v 0
    if i > 0 then i else dflt
  else dflt

/-- Source `contains(list, s)`. -/
def contains : List GoString → GoString → Bool
  | [], _ => false
  | v :: rest, s => if v = s then true else contains rest s

/-! ## `streamLogs` -/

/-- The fields of `lumberjack.Logger` that the program sets. -/
structure Logger where
  Filename : GoString
  MaxSize : Int
  MaxBackups : Int
  MaxAge : Int
  Compress : Bool
deriving DecidableEq, Repr

/-- The arguments of one `go streamLogs(ctx, cli, ...)` statement: one log task. -/
structure Task where
  containerID : GoString
  containerName : GoString
  logDir : GoString
  maxSize : Int
  maxBackups : Int
  maxAge : Int
deriving DecidableEq, Repr

/-- What one run of `streamLogs` does to the outside, in order. -/
inductive Effect where
  /-- a line written to standard output -/
  | print (text : GoString)
  /-- the call `cli.ContainerLogs(ctx, containerID, opts)` -/
  | attach (containerID : GoString)
  /-- the call `stdcopy.StdCopy(writer, writer, rc)` -/
  | copy (writer : Logger)
  /-- the deferred `rc.Close()` -/
  | close
  /-- a run-time panic: slice bounds out of range -/
  | crash
deriving DecidableEq, Repr

/-- The result of one run of `streamLogs`: the sink it built and its effects. -/
structure StreamRun where
  writer : Logger
  trace : List Effect
deriving DecidableEq, Repr

/-- Source `streamLogs`.  The outside world answers with `attachErr` (the error
of `cli.ContainerLogs`, `none` when a stream is returned), `copyErr` (the error
of `stdcopy.StdCopy`) and `ctxCancelled` (whether `ctx.Err() != nil` when the
copy has returned). -/
def streamLogs (t : Task) (attachErr copyErr : GoError) (ctxCancelled : Bool) : StreamRun :=
  let logFile := sprintfLogFile t.logDir t.containerName
  let writer : Logger :=
    { Filename := logFile
      MaxSize := t.maxSize
      MaxBackups := t.maxBackups
      MaxAge := t.maxAge
      Compress := true }
  match slice12 t.containerID with
  | none => { writer := writer, trace := [Effect.crash] }
  | some shortID =>
    let logging := Effect.print (printfLogging t.containerName shortID logFile)
    match attachErr with
    | some err =>
      { writer := writer
        trace := [logging, Effect.attach t.containerID,
          Effect.print (println [ascii "Error attaching to logs for", t.containerID, ascii ":", err])] }
    | none =>
      let copied := [logging, Effect.attach t.containerID, Effect.copy writer]
      match copyErr with
      | some err =>
        if ctxCancelled = false then
          { writer := writer
            trace := copied ++
              [Effect.print (println [ascii "Error copying logs for", t.containerID, ascii ":", err]),
               Effect.close] }
        else { writer := writer, trace := copied ++ [Effect.close] }
      | none => { writer := writer, trace := copied ++ [Effect.close] }

/-! ## `main` -/

/-- The fields of a listed container (`types.Container`) that `main` reads. -/
structure Container where
  ID : GoString
  Names : List GoString
deriving DecidableEq, Repr

/-- The field `Actor` of `events.Message`. -/
structure Actor where
  ID : GoString
  Attributes : List (GoString × GoString)
deriving DecidableEq, Repr

/-- The part of `events.Message` that `main` reads. -/
structure Message where
  Actor : Actor
deriving DecidableEq, Repr

/-- Go map index `m[key]` on a string map: the value, the empty string when
the key is absent. -/
def mapIndex : List (GoString × GoString) → GoString → GoString
  | [], _ => []
  | (k, v) :: rest, key => if k = key then v else mapIndex rest key

/-- The answers of the outside world to the calls `main` makes before its loop. -/
structure World where
  /-- the answers of `os.Getenv` -/
  env : Env
  /-- the error of `os.MkdirAll(logDir, 0755)` -/
  mkdirErr : GoError
  /-- the error of `client.NewClientWithOpts` -/
  clientErr : GoError
  /-- the result of `cli.ContainerList` with `All: false`: the running containers -/
  listing : Except GoString (List Container)

/-- What happens next while `main` is in its `for { select { ... } }` loop.  A
signal that arrives between `signal.Notify` and the loop is taken as the first
occurrence of the loop. -/
inductive Occurrence where
  /-- SIGINT or SIGTERM arrives; the signal goroutine prints and calls `cancel()` -/
  | signal
  /-- the select takes `case <-ctx.Done()` (ready only once the context is cancelled) -/
  | ctxDone
  /-- the select takes `case err := <-errsCh` -/
  | errRecv (err : GoError)
  /-- the select takes `case e := <-eventsCh` -/
  | eventRecv (e : Message)
deriving DecidableEq, Repr

/-- How the process stands. -/
inductive Status where
  /-- `main` has not returned -/
  | running
  /-- the process has ended with this exit code -/
  | exited (code : Nat)
  /-- a run-time panic of `main` itself (index or slice bounds out of range)
  ended the process; a panic inside a started task shows in the trace of
  `streamLogs` -/
  | panicked
deriving DecidableEq, Repr

/-- The observable state of a run of `main`. -/
structure State where
  /-- the lines printed so far -/
  out : List GoString
  /-- the `streamLogs` tasks started so far, in order -/
  tasks : List Task
  /-- whether `cancel()` has been called on the root context -/
  cancelled : Bool
  status : Status
deriving DecidableEq, Repr

/-- The local variables of `main` that are fixed once the environment is read. -/
structure Config where
  targetContainersEnv : GoString
  targetContainers : List GoString
  logDir : GoString
  maxSize : Int
  maxBackups : Int
  maxAge : Int
deriving DecidableEq, Repr

/-- Lines 66-69 of `main`: the token list, `nil` when the variable is empty. -/
def parseTargets (targetContainersEnv : GoString) : List GoString :=
  if targetContainersEnv ≠ [] then stringsSplit comma targetContainersEnv else []

/-- Lines 29-37 and 66-69 of `main`. -/
def readConfig (env : Env) : Config :=
  let targetContainersEnv := env TARGET_CONTAINERS
  let maxSize := getEnvInt env MAX_LOG_SIZE_MB 10
  let maxBackups := getEnvInt env MAX_BACKUPS 5
  let maxAge := getEnvInt env MAX_AGE_DAYS 30
  let logDir := env LOG_DIR
  let logDir := if logDir = [] then ascii "./logs" else logDir
  { targetContainersEnv := targetContainersEnv
    targetContainers := parseTargets targetContainersEnv
    logDir := logDir
    maxSize := maxSize
    maxBackups := maxBackups
    maxAge := maxAge }

/-- The condition of line 80,
`len(targetContainers) == 0 || contains(targetContainers, name) || contains(targetContainers, c.ID[:12])`,
evaluated left to right with short circuit; `none` is the panic of `c.ID[:12]`. -/
def discoveryCond (targetContainers : List GoString) (name id : GoString) : Option Bool :=
  if targetContainers.length = 0 then some true
  else if contains targetContainers name then some true
  else
    match slice12 id with
    | none => none
    | some shortID => some (contains targetContainers shortID)

/-- The condition of line 101,
`targetContainersEnv == "" || contains(targetContainers, name) || contains(targetContainers, e.Actor.ID[:12])`,
evaluated left to right with short circuit; `none` is the panic of `e.Actor.ID[:12]`. -/
def eventCond (targetContainersEnv : GoString) (targetContainers : List GoString)
    (name id : GoString) : Option Bool :=
  if targetContainersEnv = [] then some true
  else if contains targetContainers name then some true
  else
    match slice12 id with
    | none => none
    | some shortID => some (contains targetContainers shortID)

/-- The statement `go streamLogs(ctx, cli, id, name, logDir, maxSize, maxBackups, maxAge)`. -/
def goStreamLogs (cfg : Config) (id name : GoString) : Task :=
  { containerID := id
    containerName := name
    logDir := cfg.logDir
    maxSize := cfg.maxSize
    maxBackups := cfg.maxBackups
    maxAge := cfg.maxAge }

/-- Lines 78-83 of `main`: the loop over the listed containers. -/
def discoverLoop (cfg : Config) : List Container → State → State
  | [], st => st
  | c :: rest, st =>
    match c.Names with
    | [] => { st with status := Status.panicked }
    | n0 :: _ =>
      let name := stringsTrimPrefix n0 slash
      match discoveryCond cfg.targetContainers name c.ID with
      | none => { st with status := Status.panicked }
      | some true =>
        discoverLoop cfg rest { st with tasks := st.tasks ++ [goStreamLogs cfg c.ID name] }
      | some false => discoverLoop cfg rest st

/-- One turn of the loop of lines 91-105, or the signal goroutine of lines
59-63.  A `ctxDone` while the context is not cancelled is an arm that is not
ready: the select goes on waiting and nothing changes. -/
def watchStep (cfg : Config) (st : State) : Occurrence → State
  | Occurrence.signal =>
    if st.cancelled then st
    else { st with out := st.out ++ [println [ascii "Shutting down..."]], cancelled := true }
  | Occurrence.ctxDone =>
    if st.cancelled then { st with status := Status.exited 0 } else st
  | Occurrence.errRecv err =>
    match err with
    | some msg =>
      if st.cancelled = false then
        { st with out := st.out ++ [println [ascii "Error watching Docker events:", msg]] }
      else st
    | none => st
  | Occurrence.eventRecv e =>
    let name := mapIndex e.Actor.Attributes (ascii "name")
    match eventCond cfg.targetContainersEnv cfg.targetContainers name e.Actor.ID with
    | none => { st with status := Status.panicked }
    | some true => { st with tasks := st.tasks ++ [goStreamLogs cfg e.Actor.ID name] }
    | some false => st

/-- The loop of lines 91-105 over the occurrences that reach the process; once
the process has ended nothing more happens. -/
def watchLoop (cfg : Config) : List Occurrence → State → State
  | [], st => st
  | o :: rest, st =>
    if st.status = Status.running then watchLoop cfg rest (watchStep cfg st o) else st

/-- The state of a process that printed `line` and called `os.Exit(1)`. -/
def fatal (line : GoString) : State :=
  { out := [line], tasks := [], cancelled := false, status := Status.exited 1 }

/-- Source `main`, run against the world `w` and the occurrences `script`. -/
def main (w : World) (script : List Occurrence) : State :=
  let cfg := readConfig w.env
  match w.mkdirErr with
  | some err => fatal (println [ascii "Error creating log dir:", err])
  | none =>
    match w.clientErr with
    | some err => fatal (println [ascii "Error creating Docker client:", err])
    | none =>
      match w.listing with
      | Except.error err => fatal (println [ascii "Error listing containers:", err])
      | Except.ok containers =>
        watchLoop cfg script
          (discoverLoop cfg containers
            { out := [], tasks := [], cancelled := false, status := Status.running })

/-! ## Vocabulary of the statements -/

/-- The name under which the discovery pass knows a listed container: line 79,
`strings.TrimPrefix(c.Names[0], "/")`.  For a container without names the index
panics and this value is never used. -/
def containerName (c : Container) : GoString :=
  stringsTrimPrefix (c.Names.headD []) slash

/-- An environment in which exactly the listed variables are set. -/
def envOf (vars : List (GoString × GoString)) : Env := fun key => mapIndex vars key

/-- A running container named `web`. -/
def webContainer : Container :=
  { ID := ascii "4f2a9c0d1e3b5a6c7d8e", Names := [ascii "/web"] }

/-- A running container named `db`. -/
def dbContainer : Container :=
  { ID := ascii "9b8c7d6e5f4a3b2c1d0e", Names := [ascii "/db"] }

/-- The scenario of the spec: `TARGET_CONTAINERS=web,abc123456789`, with `web`
and `db` running. -/
def scenarioWorld : World :=
  { env := envOf [(TARGET_CONTAINERS, ascii "web,abc123456789")]
    mkdirErr := none
    clientErr := none
    listing := Except.ok [webContainer, dbContainer] }

/-- The name a start event carries: line 100, `e.Actor.Attributes["name"]`. -/
def eventName (e : Message) : GoString := mapIndex e.Actor.Attributes (ascii "name")

/-- The start events among the occurrences, in order. -/
def startEvents : List Occurrence → List Message
  | [] => []
  | Occurrence.eventRecv e :: rest => e :: startEvents rest
  | _ :: rest => startEvents rest

/-- The start event of a container with this id and name. -/
def startEvent (id name : GoString) : Message :=
  { Actor := { ID := id, Attributes := [(ascii "name", name)] } }

/-- A world in which nothing is set, every startup call succeeds and the given
containers are running. -/
def plainWorld (containers : List Container) : World :=
  { env := envOf []
    mkdirErr := none
    clientErr := none
    listing := Except.ok containers }

/-- A listed container whose first name starts with two slashes. -/
def doubleSlashContainer : Container :=
  { ID := ascii "4f2a9c0d1e3b5a6c7d8e", Names := [ascii "//web"] }

/-- A listed container whose id has fewer than 12 bytes. -/
def shortContainer : Container :=
  { ID := ascii "4f2a", Names := [ascii "/web"] }

/-- The occurrences make `main` return through `case <-ctx.Done()`: the select
takes that arm at a moment when the context is cancelled, that is, when it was
cancelled at the start (`cancelled`) or a signal has arrived before. -/
def EndsByCancellation (cancelled : Bool) (script : List Occurrence) : Prop :=
  ∃ pre post : List Occurrence,
    script = pre ++ Occurrence.ctxDone :: post ∧ (cancelled = true ∨ Occurrence.signal ∈ pre)

/-- The decimal representation of a natural number, as `strconv.Itoa` writes
it: the digits, most significant first, without leading zeros. -/
def decimal (n : Nat) : GoString :=
  if n = 0 then [48] else (Nat.digits 10 n).reverse.map (fun d => d + 48)

/-! ## Lemmas on the library functions and on `contains` -/

theorem contains_iff (list : List GoString) (s : GoString) :
    contains list s = true ↔ s ∈ list := by
  induction list with
  | nil => simp [contains]
  | cons v rest ih =>
    by_cases h : v = s
    · simp [contains, h]
    · have h2 : ¬ s = v := fun e => h e.symm
      simp [contains, h, h2, ih]

theorem contains_eq_decide (list : List GoString) (s : GoString) :
    contains list s = decide (s ∈ list) := by
  rw [Bool.eq_iff_iff, contains_iff]; simp

theorem stringsSplit_ne_nil (sep : Nat) (s : GoString) : stringsSplit sep s ≠ [] := by
  cases s with
  | nil => simp [stringsSplit]
  | cons b rest =>
    unfold stringsSplit
    split
    · simp
    · split <;> simp

theorem parseTargets_eq_nil_iff (e : GoString) : parseTargets e = [] ↔ e = [] := by
  unfold parseTargets
  by_cases h : e = []
  · simp [h]
  · simp [h, stringsSplit_ne_nil]

theorem discoveryCond_eq (toks : List GoString) (name id : GoString) (h : 12 ≤ id.length) :
    discoveryCond toks name id
      = some (decide (toks = [] ∨ name ∈ toks ∨ id.take 12 ∈ toks)) := by
  unfold discoveryCond slice12
  by_cases h0 : toks = []
  · simp [h0]
  · by_cases h1 : name ∈ toks
    · simp [h0, h1, (contains_iff toks name).2 h1]
    · have hc : contains toks name = false := by
        rw [← Bool.not_eq_true, contains_iff]; exact h1
      simp [h0, h1, hc, h, contains_eq_decide]

theorem eventCond_eq_discoveryCond (e name id : GoString) :
    eventCond e (parseTargets e) name id = discoveryCond (parseTargets e) name id := by
  unfold eventCond discoveryCond
  by_cases h : e = []
  · simp [h, parseTargets]
  · have h2 : parseTargets e ≠ [] := fun c => h ((parseTargets_eq_nil_iff e).1 c)
    simp [h, h2]

/-! ## The discovery pass -/

theorem discoverLoop_wellFormed (cfg : Config) (cs : List Container) :
    ∀ st : State, (∀ c ∈ cs, 12 ≤ c.ID.length ∧ c.Names ≠ []) →
      discoverLoop cfg cs st =
        { st with
          tasks := st.tasks ++
            (cs.filter (fun c => decide (cfg.targetContainers = []
                ∨ containerName c ∈ cfg.targetContainers
                ∨ c.ID.take 12 ∈ cfg.targetContainers))).map
              (fun c => goStreamLogs cfg c.ID (containerName c)) } := by
  induction cs with
  | nil => intro st _; simp [discoverLoop]
  | cons c rest ih =>
    intro st h
    obtain ⟨hid, hn⟩ := h c (List.mem_cons_self _ _)
    have hrest : ∀ c ∈ rest, 12 ≤ c.ID.length ∧ c.Names ≠ [] :=
      fun d hd => h d (List.mem_cons_of_mem _ hd)
    cases hN : c.Names with
    | nil => exact absurd hN hn
    | cons n0 ns =>
      have hname : containerName c = stringsTrimPrefix n0 slash := by
        simp [containerName, hN]
      unfold discoverLoop
      simp only [hN]
      rw [← hname, discoveryCond_eq _ _ _ hid]
      by_cases hp : cfg.targetContainers = [] ∨ containerName c ∈ cfg.targetContainers
          ∨ c.ID.take 12 ∈ cfg.targetContainers
      · simp only [hp, decide_True]
        rw [ih _ hrest]
        simp [List.filter_cons, hp]
      · simp only [hp, decide_False]
        rw [ih _ hrest]
        simp [List.filter_cons, hp]

theorem watchLoop_nil (cfg : Config) (st : State) : watchLoop cfg [] st = st := rfl

theorem main_started (w : World) (cs : List Container) (script : List Occurrence)
    (hmk : w.mkdirErr = none) (hcl : w.clientErr = none) (hls : w.listing = Except.ok cs) :
    main w script = watchLoop (readConfig w.env) script
      (discoverLoop (readConfig w.env) cs
        { out := [], tasks := [], cancelled := false, status := Status.running }) := by
  simp [main, hmk, hcl, hls]

/-! ## Lemmas on `streamLogs`, the discovery pass and the watch loop -/

theorem streamLogs_writer (t : Task) (attachErr copyErr : GoError) (ctxCancelled : Bool) :
    (streamLogs t attachErr copyErr ctxCancelled).writer =
      { Filename := sprintfLogFile t.logDir t.containerName
        MaxSize := t.maxSize
        MaxBackups := t.maxBackups
        MaxAge := t.maxAge
        Compress := true } := by
  unfold streamLogs
  cases slice12 t.containerID <;> cases attachErr <;> cases copyErr <;> cases ctxCancelled <;> rfl

theorem streamLogs_crash_iff (t : Task) (attachErr copyErr : GoError) (ctxCancelled : Bool) :
    Effect.crash ∈ (streamLogs t attachErr copyErr ctxCancelled).trace
      ↔ t.containerID.length < 12 := by
  unfold streamLogs slice12
  by_cases h : 12 ≤ t.containerID.length
  · have h2 : ¬ t.containerID.length < 12 := by omega
    cases attachErr <;> cases copyErr <;> cases ctxCancelled <;> simp [h, h2]
  · have h2 : t.containerID.length < 12 := by omega
    simp [h, h2]

theorem discoveryCond_eq_none_iff (toks : List GoString) (name id : GoString) :
    discoveryCond toks name id = none ↔ (toks ≠ [] ∧ name ∉ toks ∧ id.length < 12) := by
  unfold discoveryCond slice12
  by_cases h0 : toks = []
  · simp [h0]
  · by_cases h1 : name ∈ toks
    · simp [h0, h1, (contains_iff toks name).2 h1]
    · have hc : contains toks name = false := by
        rw [← Bool.not_eq_true, contains_iff]; exact h1
      by_cases h : 12 ≤ id.length
      · have h2 : ¬ id.length < 12 := by omega
        simp [h0, h1, hc, h, h2]
      · have h2 : id.length < 12 := by omega
        simp [h0, h1, hc, h, h2]

theorem discoverLoop_cons (cfg : Config) (c : Container) (rest : List Container) (st : State)
    (hn : c.Names ≠ []) :
    discoverLoop cfg (c :: rest) st =
      match discoveryCond cfg.targetContainers (containerName c) c.ID with
      | none => { st with status := Status.panicked }
      | some true =>
        discoverLoop cfg rest
          { st with tasks := st.tasks ++ [goStreamLogs cfg c.ID (containerName c)] }
      | some false => discoverLoop cfg rest st := by
  cases hN : c.Names with
  | nil => exact absurd hN hn
  | cons n0 ns =>
    have hname : containerName c = stringsTrimPrefix n0 slash := by
      simp [containerName, hN]
    rw [hname]
    conv_lhs => unfold discoverLoop
    simp only [hN]

/-- The tasks the discovery pass adds are those of some of the listed
containers, in order; it prints nothing and leaves the context alone. -/
theorem discoverLoop_tasks (cfg : Config) (cs : List Container) :
    ∀ st : State, ∃ l : List Container, l.Sublist cs ∧
      (discoverLoop cfg cs st).tasks =
        st.tasks ++ l.map (fun c => goStreamLogs cfg c.ID (containerName c)) := by
  induction cs with
  | nil => intro st; exact ⟨[], List.Sublist.refl _, by simp [discoverLoop]⟩
  | cons c rest ih =>
    intro st
    by_cases hn : c.Names = []
    · refine ⟨[], List.nil_sublist _, ?_⟩
      unfold discoverLoop
      simp [hn]
    · rw [discoverLoop_cons cfg c rest st hn]
      cases hd : discoveryCond cfg.targetContainers (containerName c) c.ID with
      | none => exact ⟨[], List.nil_sublist _, by simp⟩
      | some b =>
        cases b with
        | false =>
          obtain ⟨l, hl, ht⟩ := ih st
          exact ⟨l, List.Sublist.cons _ hl, ht⟩
        | true =>
          obtain ⟨l, hl, ht⟩ :=
            ih { st with tasks := st.tasks ++ [goStreamLogs cfg c.ID (containerName c)] }
          refine ⟨c :: l, List.Sublist.cons₂ _ hl, ?_⟩
          simp only [ht]
          simp

theorem watchStep_signal (cfg : Config) (st : State) :
    watchStep cfg st Occurrence.signal =
      if st.cancelled then st
      else { st with out := st.out ++ [println [ascii "Shutting down..."]], cancelled := true } :=
  rfl

theorem watchStep_ctxDone (cfg : Config) (st : State) :
    watchStep cfg st Occurrence.ctxDone =
      if st.cancelled then { st with status := Status.exited 0 } else st :=
  rfl

theorem watchStep_errRecv_none (cfg : Config) (st : State) :
    watchStep cfg st (Occurrence.errRecv none) = st :=
  rfl

theorem watchStep_errRecv_some (cfg : Config) (st : State) (msg : GoString) :
    watchStep cfg st (Occurrence.errRecv (some msg)) =
      if st.cancelled = false then
        { st with out := st.out ++ [println [ascii "Error watching Docker events:", msg]] }
      else st :=
  rfl

theorem watchStep_eventRecv (cfg : Config) (st : State) (e : Message) :
    watchStep cfg st (Occurrence.eventRecv e) =
      match eventCond cfg.targetContainersEnv cfg.targetContainers (eventName e) e.Actor.ID with
      | none => { st with status := Status.panicked }
      | some true => { st with tasks := st.tasks ++ [goStreamLogs cfg e.Actor.ID (eventName e)] }
      | some false => st :=
  rfl

/-- The tasks one turn of the watch loop adds: none, or the task of the start
event it received. -/
theorem watchStep_tasks (cfg : Config) (st : State) (o : Occurrence) :
    ∃ l : List Message, l.Sublist (startEvents [o]) ∧
      (watchStep cfg st o).tasks =
        st.tasks ++ l.map (fun e => goStreamLogs cfg e.Actor.ID (eventName e)) := by
  cases o with
  | signal =>
    refine ⟨[], List.nil_sublist _, ?_⟩
    rw [watchStep_signal]; split <;> simp
  | ctxDone =>
    refine ⟨[], List.nil_sublist _, ?_⟩
    rw [watchStep_ctxDone]; split <;> simp
  | errRecv err =>
    refine ⟨[], List.nil_sublist _, ?_⟩
    cases err with
    | none => rw [watchStep_errRecv_none]; simp
    | some msg => rw [watchStep_errRecv_some]; split <;> simp
  | eventRecv e =>
    rw [watchStep_eventRecv]
    cases hd : eventCond cfg.targetContainersEnv cfg.targetContainers (eventName e) e.Actor.ID with
    | none => exact ⟨[], List.nil_sublist _, by simp⟩
    | some b =>
      cases b with
      | false => exact ⟨[], List.nil_sublist _, by simp⟩
      | true => exact ⟨[e], by simp [startEvents], by simp⟩

theorem startEvents_cons (o : Occurrence) (rest : List Occurrence) :
    startEvents (o :: rest) = startEvents [o] ++ startEvents rest := by
  cases o <;> simp [startEvents]

/-- The tasks the watch loop adds are those of some of the start events it
received, in order. -/
theorem watchLoop_tasks (cfg : Config) (script : List Occurrence) :
    ∀ st : State, ∃ l : List Message, l.Sublist (startEvents script) ∧
      (watchLoop cfg script st).tasks =
        st.tasks ++ l.map (fun e => goStreamLogs cfg e.Actor.ID (eventName e)) := by
  induction script with
  | nil => intro st; exact ⟨[], List.Sublist.refl _, by simp [watchLoop]⟩
  | cons o rest ih =>
    intro st
    unfold watchLoop
    by_cases hs : st.status = Status.running
    · simp only [hs, if_true]
      obtain ⟨l1, hl1, ht1⟩ := watchStep_tasks cfg st o
      obtain ⟨l2, hl2, ht2⟩ := ih (watchStep cfg st o)
      refine ⟨l1 ++ l2, ?_, ?_⟩
      · rw [startEvents_cons]
        exact List.Sublist.append hl1 hl2
      · rw [ht2, ht1]; simp
    · exact ⟨[], List.nil_sublist _, by simp [hs]⟩

/-- Every task `main` has started is the task of a listed container or of a
start event received, in that order. -/
theorem main_tasks (w : World) (cs : List Container) (script : List Occurrence)
    (hls : w.listing = Except.ok cs) :
    ∃ (l1 : List Container) (l2 : List Message),
      l1.Sublist cs ∧ l2.Sublist (startEvents script) ∧
      (main w script).tasks =
        l1.map (fun c => goStreamLogs (readConfig w.env) c.ID (containerName c))
          ++ l2.map (fun e => goStreamLogs (readConfig w.env) e.Actor.ID (eventName e)) := by
  cases hmk : w.mkdirErr with
  | some err =>
    exact ⟨[], [], List.nil_sublist _, List.nil_sublist _, by simp [main, hmk, fatal]⟩
  | none =>
    cases hcl : w.clientErr with
    | some err =>
      exact ⟨[], [], List.nil_sublist _, List.nil_sublist _, by simp [main, hmk, hcl, fatal]⟩
    | none =>
      rw [main_started w cs script hmk hcl hls]
      obtain ⟨l1, hl1, ht1⟩ := discoverLoop_tasks (readConfig w.env) cs
        { out := [], tasks := [], cancelled := false, status := Status.running }
      obtain ⟨l2, hl2, ht2⟩ := watchLoop_tasks (readConfig w.env) script
        (discoverLoop (readConfig w.env) cs
          { out := [], tasks := [], cancelled := false, status := Status.running })
      refine ⟨l1, l2, hl1, hl2, ?_⟩
      rw [ht2, ht1]; simp

/-- A task that `main` has started carries the configuration read at startup. -/
theorem main_task_config (w : World) (script : List Occurrence) (t : Task)
    (ht : t ∈ (main w script).tasks) :
    t.logDir = (readConfig w.env).logDir ∧ t.maxSize = (readConfig w.env).maxSize
      ∧ t.maxBackups = (readConfig w.env).maxBackups ∧ t.maxAge = (readConfig w.env).maxAge := by
  cases hls : w.listing with
  | error err =>
    have : (main w script).tasks = [] := by
      unfold main
      cases w.mkdirErr <;> cases w.clientErr <;> simp [hls, fatal]
    rw [this] at ht
    exact absurd ht (List.not_mem_nil _)
  | ok cs =>
    obtain ⟨l1, l2, _, _, htasks⟩ := main_tasks w cs script hls
    rw [htasks, List.mem_append, List.mem_map, List.mem_map] at ht
    rcases ht with ⟨c, _, rfl⟩ | ⟨e, _, rfl⟩ <;> exact ⟨rfl, rfl, rfl, rfl⟩

theorem sprintfLogFile_injective (logDir : GoString) :
    Function.Injective (sprintfLogFile logDir) := by
  intro a b h
  unfold sprintfLogFile at h
  simp only [List.append_assoc] at h
  exact List.append_cancel_right (List.append_cancel_left (List.append_cancel_left h))

/-! ## How the watch loop ends -/

theorem eventCond_eq_none_iff (e : GoString) (toks : List GoString) (name id : GoString) :
    eventCond e toks name id = none ↔ (e ≠ [] ∧ name ∉ toks ∧ id.length < 12) := by
  unfold eventCond slice12
  by_cases h0 : e = []
  · simp [h0]
  · by_cases h1 : name ∈ toks
    · simp [h0, h1, (contains_iff toks name).2 h1]
    · have hc : contains toks name = false := by
        rw [← Bool.not_eq_true, contains_iff]; exact h1
      by_cases h : 12 ≤ id.length
      · have h2 : ¬ id.length < 12 := by omega
        simp [h0, h1, hc, h, h2]
      · have h2 : id.length < 12 := by omega
        simp [h0, h1, hc, h, h2]

theorem endsByCancellation_cons (c : Bool) (o : Occurrence) (rest : List Occurrence) :
    EndsByCancellation c (o :: rest) ↔
      ((o = Occurrence.ctxDone ∧ c = true)
        ∨ EndsByCancellation (c || decide (o = Occurrence.signal)) rest) := by
  unfold EndsByCancellation
  constructor
  · rintro ⟨pre, post, hs, hc⟩
    cases pre with
    | nil =>
      simp only [List.nil_append, List.cons.injEq] at hs
      left
      refine ⟨hs.1, ?_⟩
      rcases hc with hc | hc
      · exact hc
      · exact absurd hc (List.not_mem_nil _)
    | cons o2 pre2 =>
      simp only [List.cons_append, List.cons.injEq] at hs
      right
      refine ⟨pre2, post, hs.2, ?_⟩
      rcases hc with hc | hc
      · left; simp [hc]
      · rcases List.mem_cons.1 hc with h | h
        · left; simp [hs.1, ← h]
        · right; exact h
  · rintro (⟨ho, hc⟩ | ⟨pre, post, hs, hc⟩)
    · exact ⟨[], rest, by simp [ho], Or.inl hc⟩
    · refine ⟨o :: pre, post, by simp [hs], ?_⟩
      rcases hc with hc | hc
      · simp only [Bool.or_eq_true, decide_eq_true_eq] at hc
        rcases hc with hc | hc
        · exact Or.inl hc
        · right; simp [hc]
      · right; exact List.mem_cons_of_mem _ hc

theorem watchLoop_of_not_running (cfg : Config) (script : List Occurrence) (st : State)
    (h : st.status ≠ Status.running) : watchLoop cfg script st = st := by
  cases script with
  | nil => rfl
  | cons o rest => simp [watchLoop, h]

theorem watchLoop_cons_running (cfg : Config) (o : Occurrence) (rest : List Occurrence)
    (st : State) (h : st.status = Status.running) :
    watchLoop cfg (o :: rest) st = watchLoop cfg rest (watchStep cfg st o) := by
  simp [watchLoop, h]

/-- One turn of the loop from a running state: either the cancellation arm is
taken with the context cancelled and `main` returns, or the loop goes on (or a
start event with a short id makes the slice panic). -/
theorem watchStep_cases (cfg : Config) (st : State) (o : Occurrence)
    (hrun : st.status = Status.running) :
    (o = Occurrence.ctxDone ∧ st.cancelled = true
        ∧ (watchStep cfg st o).status = Status.exited 0)
    ∨ (¬ (o = Occurrence.ctxDone ∧ st.cancelled = true)
        ∧ (watchStep cfg st o).cancelled = (st.cancelled || decide (o = Occurrence.signal))
        ∧ ((watchStep cfg st o).status = Status.running
            ∨ ((watchStep cfg st o).status = Status.panicked
                ∧ ∃ e, o = Occurrence.eventRecv e ∧ e.Actor.ID.length < 12))) := by
  cases o with
  | signal =>
    right
    rw [watchStep_signal]
    by_cases hc : st.cancelled = true
    · simp [hc, hrun]
    · simp [hc, hrun]
  | ctxDone =>
    rw [watchStep_ctxDone]
    by_cases hc : st.cancelled = true
    · left; simp [hc]
    · right; simp [hc, hrun]
  | errRecv err =>
    right
    cases err with
    | none => rw [watchStep_errRecv_none]; simp [hrun]
    | some msg =>
      rw [watchStep_errRecv_some]
      by_cases hc : st.cancelled = false
      · simp [hc, hrun]
      · simp [hc, hrun]
  | eventRecv e =>
    right
    rw [watchStep_eventRecv]
    cases hd : eventCond cfg.targetContainersEnv cfg.targetContainers (eventName e) e.Actor.ID with
    | none =>
      have hlen := ((eventCond_eq_none_iff _ _ _ _).1 hd).2.2
      simp [hlen]
    | some b => cases b <;> simp [hrun]

/-- How the watch loop ends from a running state: an exit has code 0 and comes
from the cancellation arm; when every start event carries an id of at least 12
bytes there is no panic, and the cancellation arm taken after a signal does end
the loop. -/
theorem watchLoop_status (cfg : Config) (script : List Occurrence) :
    ∀ st : State, st.status = Status.running →
      (∀ code, (watchLoop cfg script st).status = Status.exited code →
          code = 0 ∧ EndsByCancellation st.cancelled script)
      ∧ ((∀ e ∈ startEvents script, 12 ≤ e.Actor.ID.length) →
          (watchLoop cfg script st).status ≠ Status.panicked
          ∧ (EndsByCancellation st.cancelled script →
              (watchLoop cfg script st).status = Status.exited 0)) := by
  induction script with
  | nil =>
    intro st hrun
    have hno : ¬ EndsByCancellation st.cancelled [] := by
      rintro ⟨pre, post, hs, _⟩
      cases pre <;> simp at hs
    refine ⟨?_, fun _ => ⟨?_, fun h => absurd h hno⟩⟩
    · intro code h
      simp [watchLoop, hrun] at h
    · simp [watchLoop, hrun]
  | cons o rest ih =>
    intro st hrun
    rw [watchLoop_cons_running cfg o rest st hrun, endsByCancellation_cons]
    rcases watchStep_cases cfg st o hrun with ⟨ho, hc, hst⟩ | ⟨hnot, hcan, hst⟩
    · have hnr : (watchStep cfg st o).status ≠ Status.running := by rw [hst]; simp
      rw [watchLoop_of_not_running cfg rest _ hnr, hst]
      refine ⟨?_, fun _ => ⟨by simp, fun _ => rfl⟩⟩
      intro code h
      simp only [Status.exited.injEq] at h
      exact ⟨h.symm, Or.inl ⟨ho, hc⟩⟩
    · rcases hst with hst | ⟨hst, e, he, hlen⟩
      · obtain ⟨ih1, ih2⟩ := ih (watchStep cfg st o) hst
        rw [hcan] at ih1 ih2
        refine ⟨fun code h => ⟨(ih1 code h).1, Or.inr (ih1 code h).2⟩, ?_⟩
        intro hwf
        have hwf2 : ∀ e ∈ startEvents rest, 12 ≤ e.Actor.ID.length := by
          intro e he
          apply hwf e
          rw [startEvents_cons]
          exact List.mem_append_right _ he
        obtain ⟨ih3, ih4⟩ := ih2 hwf2
        refine ⟨ih3, ?_⟩
        rintro (h | h)
        · exact absurd h hnot
        · exact ih4 h
      · have hnr : (watchStep cfg st o).status ≠ Status.running := by rw [hst]; simp
        rw [watchLoop_of_not_running cfg rest _ hnr, hst]
        refine ⟨fun code h => by simp at h, ?_⟩
        intro hwf
        have : 12 ≤ e.Actor.ID.length := by
          apply hwf e
          rw [he]
          simp [startEvents]
        omega

theorem discoverLoop_status (cfg : Config) (cs : List Container) :
    ∀ st : State, (discoverLoop cfg cs st).status = st.status
      ∨ (discoverLoop cfg cs st).status = Status.panicked := by
  induction cs with
  | nil => intro st; left; rfl
  | cons c rest ih =>
    intro st
    by_cases hn : c.Names = []
    · right
      unfold discoverLoop
      simp [hn]
    · rw [discoverLoop_cons cfg c rest st hn]
      cases hd : discoveryCond cfg.targetContainers (containerName c) c.ID with
      | none => right; rfl
      | some b =>
        cases b with
        | false => exact ih st
        | true =>
          exact ih { st with tasks := st.tasks ++ [goStreamLogs cfg c.ID (containerName c)] }

/-! ## Lemmas on `fmt.Sscanf` and `getEnvInt` -/

/-- The bytes `skipSpace` leaves are bytes of its argument. -/
theorem skipSpace_subset (v : GoString) :
    ∀ s, skipSpace v = some s → ∀ b ∈ s, b ∈ v := by
  induction v using skipSpace.induct with
  | case1 => intro s h; simp [skipSpace] at h; subst h; simp
  | case2 rest => intro s h; unfold skipSpace at h; simp at h
  | case3 b rest hb hsp ih =>
    intro s h x hx
    unfold skipSpace at h
    rw [if_neg hb, if_pos hsp] at h
    exact List.mem_cons_of_mem _ (ih s h x hx)
  | case4 b hb hsp =>
    intro s h
    unfold skipSpace at h
    rw [if_neg hb, if_neg hsp] at h
    simp only [Option.some.injEq] at h
    subst h; simp
  | case5 b hb hsp b1 rest1 h2 ih =>
    intro s h x hx
    unfold skipSpace at h
    rw [if_neg hb, if_neg hsp] at h
    simp only [] at h
    rw [if_pos h2] at h
    exact List.mem_cons_of_mem _ (List.mem_cons_of_mem _ (ih s h x hx))
  | case6 b hb hsp b1 h2 =>
    intro s h
    unfold skipSpace at h
    rw [if_neg hb, if_neg hsp] at h
    simp only [] at h
    rw [if_neg h2] at h
    simp only [Option.some.injEq] at h
    subst h; simp
  | case7 b hb hsp b1 h2 b2 rest2 h3 ih =>
    intro s h x hx
    unfold skipSpace at h
    rw [if_neg hb, if_neg hsp] at h
    simp only [] at h
    rw [if_neg h2, if_pos h3] at h
    exact List.mem_cons_of_mem _ (List.mem_cons_of_mem _ (List.mem_cons_of_mem _ (ih s h x hx)))
  | case8 b hb hsp b1 h2 b2 rest2 h3 =>
    intro s h
    unfold skipSpace at h
    rw [if_neg hb, if_neg hsp] at h
    simp only [] at h
    rw [if_neg h2, if_neg h3] at h
    simp only [Option.some.injEq] at h
    subst h; simp

/-- A string that starts with a graphic ASCII byte has no leading space. -/
theorem skipSpace_of_ascii_graphic (b : Nat) (rest : GoString) (h : 33 ≤ b ∧ b ≤ 127) :
    skipSpace (b :: rest) = some (b :: rest) := by
  have h10 : b ≠ 10 := by omega
  have hsp : ¬ (b = 9 ∨ b = 11 ∨ b = 12 ∨ b = 13 ∨ b = 32) := by omega
  have h194 : b ≠ 194 := by omega
  have h225 : b ≠ 225 := by omega
  have h226 : b ≠ 226 := by omega
  have h227 : b ≠ 227 := by omega
  cases rest with
  | nil => simp [skipSpace, h10, hsp]
  | cons b1 rest1 =>
    cases rest1 with
    | nil => simp [skipSpace, h10, hsp, h194]
    | cons b2 rest2 => simp [skipSpace, h10, hsp, h194, h225, h226, h227]

theorem isDigit_iff (b : Nat) : isDigit b = true ↔ (48 ≤ b ∧ b ≤ 57) := by
  simp [isDigit]

theorem acceptSign_of_digit (d : Nat) (rest : GoString) (h : isDigit d = true) :
    acceptSign (d :: rest) = (false, d :: rest) := by
  have hd := (isDigit_iff d).1 h
  unfold acceptSign
  split
  · rename_i heq; simp at heq; omega
  · rename_i heq; simp at heq; omega
  · rfl

theorem acceptSign_minus (ds : GoString) : acceptSign (45 :: ds) = (true, ds) := rfl

theorem acceptSign_subset (s : GoString) : ∀ b ∈ (acceptSign s).2, b ∈ s := by
  intro b hb
  unfold acceptSign at hb
  split at hb
  · exact List.mem_cons_of_mem _ hb
  · exact List.mem_cons_of_mem _ hb
  · exact hb

theorem takeWhile_isDigit_of_all (ds : GoString) (h : ∀ b ∈ ds, isDigit b = true) :
    ds.takeWhile isDigit = ds := by
  induction ds with
  | nil => rfl
  | cons d rest ih =>
    have hd := h d (List.mem_cons_self _ _)
    rw [List.takeWhile_cons, hd]
    simp only [if_true]
    rw [ih (fun b hb => h b (List.mem_cons_of_mem _ hb))]

theorem takeWhile_isDigit_of_none (s : GoString) (h : ∀ b ∈ s, isDigit b = false) :
    s.takeWhile isDigit = [] := by
  cases s with
  | nil => rfl
  | cons d rest =>
    rw [List.takeWhile_cons, h d (List.mem_cons_self _ _)]
    simp

theorem parseInt_plus (ds : GoString) (hne : ds ≠ []) :
    parseInt false ds = if digitsValue ds < 2 ^ 63 then some (digitsValue ds : Int) else none := by
  unfold parseInt
  rw [if_neg hne]
  simp only [Bool.false_eq_true, if_false]
  have hnn : (0 : Int) ≤ (digitsValue ds : Int) := Int.ofNat_nonneg _
  by_cases hlt : digitsValue ds < 2 ^ 63
  · have h2 : ((digitsValue ds : Nat) : Int) < 2 ^ 63 := by exact_mod_cast hlt
    have h3 : -(2 ^ 63 : Int) ≤ (digitsValue ds : Int) := by
      have : (0 : Int) < 2 ^ 63 := by norm_num
      omega
    rw [if_pos ⟨h3, h2⟩, if_pos hlt]
  · have h2 : ¬ ((digitsValue ds : Nat) : Int) < 2 ^ 63 := by
      intro hc; exact hlt (by exact_mod_cast hc)
    rw [if_neg (fun hc => h2 hc.2), if_neg hlt]

theorem parseInt_minus_le (ds : GoString) (x : Int) (hx : parseInt true ds = some x) :
    x ≤ 0 := by
  unfold parseInt at hx
  split at hx
  · exact absurd hx (by simp)
  · simp only [if_true] at hx
    split at hx
    · simp only [Option.some.injEq] at hx
      have : (0 : Int) ≤ (digitsValue ds : Int) := Int.ofNat_nonneg _
      omega
    · exact absurd hx (by simp)

theorem parseInt_range (negative : Bool) (ds : GoString) (x : Int)
    (h : parseInt negative ds = some x) : -(2 ^ 63 : Int) ≤ x ∧ x < 2 ^ 63 := by
  unfold parseInt at h
  by_cases he : ds = []
  · rw [if_pos he] at h
    exact absurd h (by simp)
  · rw [if_neg he] at h
    simp only [] at h
    generalize (if negative = true then -(digitsValue ds : Int) else (digitsValue ds : Int)) = y
      at h
    by_cases hr : -(2 ^ 63 : Int) ≤ y ∧ y < 2 ^ 63
    · rw [if_pos hr] at h
      simp only [Option.some.injEq] at h
      rw [← h]
      exact hr
    · rw [if_neg hr] at h
      exact absurd h (by simp)

/-- What scans is in the range of a 64-bit `int`. -/
theorem scanInt_range (v : GoString) (x : Int) (h : scanInt v = some x) :
    -(2 ^ 63 : Int) ≤ x ∧ x < 2 ^ 63 := by
  unfold scanInt at h
  cases hs : skipSpace v with
  | none => rw [hs] at h; exact absurd h (by simp)
  | some s =>
    rw [hs] at h
    exact parseInt_range _ _ x h

/-- The scan of a non-empty run of digits: its value, when that is below 2^63. -/
theorem scanInt_digits (ds : GoString) (hne : ds ≠ []) (h : ∀ b ∈ ds, isDigit b = true) :
    scanInt ds = if digitsValue ds < 2 ^ 63 then some (digitsValue ds : Int) else none := by
  cases ds with
  | nil => exact absurd rfl hne
  | cons d rest =>
    have hd := h d (List.mem_cons_self _ _)
    have hr := (isDigit_iff d).1 hd
    unfold scanInt
    rw [skipSpace_of_ascii_graphic d rest (by omega)]
    simp only []
    rw [acceptSign_of_digit d rest hd]
    simp only []
    rw [takeWhile_isDigit_of_all _ h, parseInt_plus _ hne]

/-- The scan of a minus sign followed by anything is never positive. -/
theorem scanInt_minus (ds : GoString) (x : Int) (hx : scanInt (45 :: ds) = some x) :
    x ≤ 0 := by
  unfold scanInt at hx
  rw [skipSpace_of_ascii_graphic 45 ds (by omega)] at hx
  simp only [acceptSign_minus] at hx
  exact parseInt_minus_le _ x hx

/-- A value without any digit does not scan. -/
theorem scanInt_of_no_digit (v : GoString) (h : ∀ b ∈ v, isDigit b = false) :
    scanInt v = none := by
  unfold scanInt
  cases hs : skipSpace v with
  | none => rfl
  | some s =>
    have hsub := skipSpace_subset v s hs
    simp only []
    rw [takeWhile_isDigit_of_none _
      (fun b hb => h b (hsub b (acceptSign_subset s b hb)))]
    simp [parseInt]

/-- A value that starts with a graphic ASCII byte other than a digit or a sign
does not scan. -/
theorem scanInt_of_other_head (b : Nat) (rest : GoString) (h33 : 33 ≤ b) (h127 : b ≤ 127)
    (hnd : isDigit b = false) (h43 : b ≠ 43) (h45 : b ≠ 45) :
    scanInt (b :: rest) = none := by
  have hsign : acceptSign (b :: rest) = (false, b :: rest) := by
    unfold acceptSign
    split
    · rename_i heq; simp at heq; omega
    · rename_i heq; simp at heq; omega
    · rfl
  unfold scanInt
  rw [skipSpace_of_ascii_graphic b rest ⟨h33, h127⟩]
  simp only []
  rw [hsign]
  simp only []
  rw [List.takeWhile_cons, hnd]
  simp [parseInt]

theorem digitsValue_reverse_map (l : List Nat) :
    digitsValue (l.reverse.map (fun d => d + 48)) = Nat.ofDigits 10 l := by
  induction l with
  | nil => simp [digitsValue]
  | cons d rest ih =>
    unfold digitsValue at ih ⊢
    rw [List.reverse_cons, List.map_append, List.foldl_append, ih, Nat.ofDigits_cons]
    simp only [List.map_cons, List.map_nil, List.foldl_cons, List.foldl_nil]
    omega

theorem digitsValue_decimal (n : Nat) : digitsValue (decimal n) = n := by
  unfold decimal
  by_cases h : n = 0
  · simp [h, digitsValue]
  · rw [if_neg h, digitsValue_reverse_map, Nat.ofDigits_digits]

theorem decimal_ne_nil (n : Nat) : decimal n ≠ [] := by
  unfold decimal
  by_cases h : n = 0
  · simp [h]
  · simp [h, Nat.digits_ne_nil_iff_ne_zero]

theorem isDigit_of_mem_decimal (n : Nat) : ∀ b ∈ decimal n, isDigit b = true := by
  intro b hb
  unfold decimal at hb
  by_cases h : n = 0
  · simp [h] at hb
    subst hb
    decide
  · rw [if_neg h, List.mem_map] at hb
    obtain ⟨d, hd, rfl⟩ := hb
    have hlt := Nat.digits_lt_base (by norm_num : 1 < 10) (List.mem_reverse.1 hd)
    rw [isDigit_iff]
    omega

theorem getEnvInt_of_scan (env : Env) (key : GoString) (dflt : Int) :
    getEnvInt env key dflt =
      if env key = [] then dflt
      else
        match scanInt (env key) with
        | some x => if x > 0 then x else dflt
        | none => dflt := by
  unfold getEnvInt sscanfD
  by_cases h : env key = []
  · simp [h]
  · cases hs : scanInt (env key) <;> simp [h, hs]

theorem getEnvInt_decimal (env : Env) (key : GoString) (dflt : Int) (n : Nat)
    (h : env key = decimal n) :
    getEnvInt env key dflt = if 0 < n ∧ n < 2 ^ 63 then (n : Int) else dflt := by
  rw [getEnvInt_of_scan, h, if_neg (decimal_ne_nil n),
    scanInt_digits _ (decimal_ne_nil n) (isDigit_of_mem_decimal n), digitsValue_decimal]
  by_cases hlt : n < 2 ^ 63
  · by_cases hpos : 0 < n
    · have : (n : Int) > 0 := by exact_mod_cast hpos
      simp only [hlt, if_true, this, hpos, and_self]
    · have : ¬ (n : Int) > 0 := by
        intro hc; exact hpos (by exact_mod_cast hc)
      simp only [hlt, if_true, this, if_false, hpos, false_and]
  · simp only [hlt, if_false, and_false]

/-! ## A start event at the end of a run -/

theorem watchLoop_append (cfg : Config) (s1 s2 : List Occurrence) :
    ∀ st : State, watchLoop cfg (s1 ++ s2) st = watchLoop cfg s2 (watchLoop cfg s1 st) := by
  induction s1 with
  | nil => intro st; rfl
  | cons o rest ih =>
    intro st
    by_cases h : st.status = Status.running
    · rw [List.cons_append, watchLoop_cons_running cfg o _ st h,
        watchLoop_cons_running cfg o rest st h, ih]
    · rw [watchLoop_of_not_running cfg _ st h, watchLoop_of_not_running cfg _ st h,
        watchLoop_of_not_running cfg _ st h]

/-- Once startup has succeeded, one more occurrence at the end of a run is one
more turn of the loop on the state reached so far. -/
theorem main_snoc (w : World) (cs : List Container) (script : List Occurrence)
    (o : Occurrence) (hmk : w.mkdirErr = none) (hcl : w.clientErr = none)
    (hls : w.listing = Except.ok cs) (hrun : (main w script).status = Status.running) :
    main w (script ++ [o]) = watchStep (readConfig w.env) (main w script) o := by
  rw [main_started w cs _ hmk hcl hls, watchLoop_append, ← main_started w cs script hmk hcl hls,
    watchLoop_cons_running _ _ _ _ hrun, watchLoop_nil]

/-- The start-event arm on an id of at least 12 bytes: the task is started
exactly when the filter of the discovery pass lets the name and id through. -/
theorem watchStep_eventRecv_eq (env : Env) (st : State) (e : Message)
    (hid : 12 ≤ e.Actor.ID.length) :
    watchStep (readConfig env) st (Occurrence.eventRecv e) =
      if parseTargets (env TARGET_CONTAINERS) = []
          ∨ eventName e ∈ parseTargets (env TARGET_CONTAINERS)
          ∨ e.Actor.ID.take 12 ∈ parseTargets (env TARGET_CONTAINERS)
      then { st with tasks := st.tasks ++ [goStreamLogs (readConfig env) e.Actor.ID (eventName e)] }
      else st := by
  have htc : (readConfig env).targetContainers = parseTargets (env TARGET_CONTAINERS) := rfl
  have hte : (readConfig env).targetContainersEnv = env TARGET_CONTAINERS := rfl
  rw [watchStep_eventRecv, htc, hte, eventCond_eq_discoveryCond, discoveryCond_eq _ _ _ hid]
  by_cases hp : parseTargets (env TARGET_CONTAINERS) = []
      ∨ eventName e ∈ parseTargets (env TARGET_CONTAINERS)
      ∨ e.Actor.ID.take 12 ∈ parseTargets (env TARGET_CONTAINERS)
  · simp only [hp, decide_True, if_true]
  · simp only [hp, decide_False, if_false]

/-- The discovery pass over one container with a name and an id of at least 12
bytes: the task is started exactly when the filter lets it through. -/
theorem discoverLoop_single_eq (env : Env) (st : State) (c : Container)
    (hid : 12 ≤ c.ID.length) (hn : c.Names ≠ []) :
    discoverLoop (readConfig env) [c] st =
      if parseTargets (env TARGET_CONTAINERS) = []
          ∨ containerName c ∈ parseTargets (env TARGET_CONTAINERS)
          ∨ c.ID.take 12 ∈ parseTargets (env TARGET_CONTAINERS)
      then { st with tasks := st.tasks ++ [goStreamLogs (readConfig env) c.ID (containerName c)] }
      else st := by
  have htc : (readConfig env).targetContainers = parseTargets (env TARGET_CONTAINERS) := rfl
  rw [discoverLoop_cons _ c [] st hn, htc, discoveryCond_eq _ _ _ hid]
  by_cases hp : parseTargets (env TARGET_CONTAINERS) = []
      ∨ containerName c ∈ parseTargets (env TARGET_CONTAINERS)
      ∨ c.ID.take 12 ∈ parseTargets (env TARGET_CONTAINERS)
  · simp only [hp, decide_True, if_true]
    rfl
  · simp only [hp, decide_False, if_false]
    rfl

/-! ## Claims -/

/-- Claim C1: on a listing of running containers whose ids have at least 12
bytes and whose `Names` are non-empty, the startup discovery pass of `main`
ends without leaving `main`, and the tasks it starts are, in order, one task per
listed container for which the token list parsed from `TARGET_CONTAINERS` is
empty, or holds the container's name (`Names[0]` without its leading `/`), or
holds the first 12 bytes of its id; hence a task for a listed container is
started if and only if that test succeeds. -/
theorem C1_discovery_starts_exactly_the_matching (w : World) (cs : List Container)
    (hmk : w.mkdirErr = none) (hcl : w.clientErr = none) (hls : w.listing = Except.ok cs)
    (hwf : ∀ c ∈ cs, 12 ≤ c.ID.length ∧ c.Names ≠ []) :
    (main w []).status = Status.running
    ∧ (main w []).tasks =
        (cs.filter (fun c => decide (parseTargets (w.env TARGET_CONTAINERS) = []
            ∨ containerName c ∈ parseTargets (w.env TARGET_CONTAINERS)
            ∨ c.ID.take 12 ∈ parseTargets (w.env TARGET_CONTAINERS)))).map
          (fun c => goStreamLogs (readConfig w.env) c.ID (containerName c))
    ∧ ∀ c ∈ cs,
        (goStreamLogs (readConfig w.env) c.ID (containerName c) ∈ (main w []).tasks
          ↔ (parseTargets (w.env TARGET_CONTAINERS) = []
              ∨ containerName c ∈ parseTargets (w.env TARGET_CONTAINERS)
              ∨ c.ID.take 12 ∈ parseTargets (w.env TARGET_CONTAINERS))) := by
  have hmain := main_started w cs [] hmk hcl hls
  rw [watchLoop_nil, discoverLoop_wellFormed _ _ _ hwf] at hmain
  have htc : (readConfig w.env).targetContainers = parseTargets (w.env TARGET_CONTAINERS) := rfl
  rw [htc] at hmain
  refine ⟨by rw [hmain], by rw [hmain]; simp, ?_⟩
  intro c hc
  rw [hmain]
  simp only [List.nil_append, List.mem_map, List.mem_filter, decide_eq_true_eq]
  constructor
  · rintro ⟨d, ⟨_, hd⟩, heq⟩
    have hID : d.ID = c.ID := congrArg Task.containerID heq
    have hNm : containerName d = containerName c := congrArg Task.containerName heq
    rw [hID, hNm] at hd
    exact hd
  · intro hp
    exact ⟨c, ⟨hc, hp⟩, rfl⟩

/-- Witness of C1: with `TARGET_CONTAINERS=web,abc123456789` and the containers
`web` and `db` running, the discovery pass starts one task, for `web`. -/
theorem C1_witness :
    (main scenarioWorld []).status = Status.running
    ∧ (main scenarioWorld []).tasks.map Task.containerName = [ascii "web"]
    ∧ (main scenarioWorld []).tasks.map Task.containerID = [webContainer.ID] := by
  have h := C1_discovery_starts_exactly_the_matching scenarioWorld [webContainer, dbContainer]
    rfl rfl rfl (by decide)
  refine ⟨h.1, ?_, ?_⟩
  · rw [h.2.1]; decide
  · rw [h.2.1]; decide

/-- Claim C2: the start-event path applies the same filter as the discovery
path.  For every value of `TARGET_CONTAINERS`, every container name and every
id of at least 12 bytes, the decision of line 101 (which tests the raw variable
for emptiness) is defined and equal to the decision of line 80 (which tests the
split token list for emptiness); the split token list is empty if and only if
the variable is empty, and then the start-event path decides to log.  The
start-event arm of the loop acts on that decision: on a start event with this
name and id it starts the task of that name and id exactly when the token list
is empty, or holds the name, or holds the first 12 bytes of the id, and else
changes nothing; that is the state the discovery pass reaches on a listed
container of the same name and id; and in `main`, after a successful startup
and any run that has left it running, one more start event has exactly this
effect. -/
theorem C2_event_path_same_filter (env : Env) (name id : GoString) (hid : 12 ≤ id.length) :
    eventCond (readConfig env).targetContainersEnv (readConfig env).targetContainers name id
      = discoveryCond (readConfig env).targetContainers name id
    ∧ (∃ b, discoveryCond (readConfig env).targetContainers name id = some b)
    ∧ ((readConfig env).targetContainers = [] ↔ env TARGET_CONTAINERS = [])
    ∧ (env TARGET_CONTAINERS = [] →
        eventCond (readConfig env).targetContainersEnv (readConfig env).targetContainers name id
          = some true)
    ∧ (∀ (st : State) (e : Message), e.Actor.ID = id → eventName e = name →
        watchStep (readConfig env) st (Occurrence.eventRecv e) =
          if parseTargets (env TARGET_CONTAINERS) = []
              ∨ name ∈ parseTargets (env TARGET_CONTAINERS)
              ∨ id.take 12 ∈ parseTargets (env TARGET_CONTAINERS)
          then { st with tasks := st.tasks ++ [goStreamLogs (readConfig env) id name] }
          else st)
    ∧ (∀ (st : State) (e : Message) (c : Container), e.Actor.ID = id → eventName e = name →
        c.ID = id → c.Names ≠ [] → containerName c = name →
        watchStep (readConfig env) st (Occurrence.eventRecv e)
          = discoverLoop (readConfig env) [c] st)
    ∧ (∀ (w : World) (cs : List Container) (script : List Occurrence) (e : Message),
        w.env = env → w.mkdirErr = none → w.clientErr = none → w.listing = Except.ok cs →
        (main w script).status = Status.running → e.Actor.ID = id → eventName e = name →
        main w (script ++ [Occurrence.eventRecv e]) =
          if parseTargets (env TARGET_CONTAINERS) = []
              ∨ name ∈ parseTargets (env TARGET_CONTAINERS)
              ∨ id.take 12 ∈ parseTargets (env TARGET_CONTAINERS)
          then { main w script with
                  tasks := (main w script).tasks ++ [goStreamLogs (readConfig env) id name] }
          else main w script) := by
  have htc : (readConfig env).targetContainers = parseTargets (env TARGET_CONTAINERS) := rfl
  have hte : (readConfig env).targetContainersEnv = env TARGET_CONTAINERS := rfl
  have hstep : ∀ (st : State) (e : Message), e.Actor.ID = id → eventName e = name →
      watchStep (readConfig env) st (Occurrence.eventRecv e) =
        if parseTargets (env TARGET_CONTAINERS) = []
            ∨ name ∈ parseTargets (env TARGET_CONTAINERS)
            ∨ id.take 12 ∈ parseTargets (env TARGET_CONTAINERS)
        then { st with tasks := st.tasks ++ [goStreamLogs (readConfig env) id name] }
        else st := by
    intro st e he hn
    have h := watchStep_eventRecv_eq env st e (by rw [he]; exact hid)
    rw [he, hn] at h
    exact h
  rw [htc, hte]
  refine ⟨eventCond_eq_discoveryCond _ _ _, ⟨_, discoveryCond_eq _ _ _ hid⟩,
    parseTargets_eq_nil_iff _, ?_, hstep, ?_, ?_⟩
  · intro h
    simp [eventCond, h]
  · intro st e c he hn hc hnames hcn
    have h := discoverLoop_single_eq env st c (by rw [hc]; exact hid) hnames
    rw [hc, hcn] at h
    rw [hstep st e he hn, h]
  · intro w cs script e hw hmk hcl hls hrun he hn
    rw [main_snoc w cs script _ hmk hcl hls hrun, hw]
    exact hstep _ e he hn

/-- Witness of C2: with `TARGET_CONTAINERS=web,abc123456789`, the container `db`
is refused on both paths; in `main`, a start event for `db` starts nothing and
a start event for `web` starts the task of `web`. -/
theorem C2_witness :
    eventCond (readConfig scenarioWorld.env).targetContainersEnv
        (readConfig scenarioWorld.env).targetContainers (ascii "db") dbContainer.ID = some false
    ∧ discoveryCond (readConfig scenarioWorld.env).targetContainers (ascii "db") dbContainer.ID
        = some false
    ∧ main scenarioWorld ([] ++ [Occurrence.eventRecv (startEvent dbContainer.ID (ascii "db"))])
        = main scenarioWorld []
    ∧ (main scenarioWorld
        [Occurrence.eventRecv (startEvent webContainer.ID (ascii "web"))]).tasks.map
          Task.containerName = [ascii "web", ascii "web"] := by
  have h := C2_event_path_same_filter scenarioWorld.env (ascii "db") dbContainer.ID (by decide)
  have hd : discoveryCond (readConfig scenarioWorld.env).targetContainers (ascii "db")
      dbContainer.ID = some false := by decide
  refine ⟨h.1.trans hd, hd, ?_, by decide⟩
  rw [h.2.2.2.2.2.2 scenarioWorld [webContainer, dbContainer] []
    (startEvent dbContainer.ID (ascii "db")) rfl rfl rfl rfl (by decide) rfl (by decide)]
  exact if_neg (by decide)

/-- Counterexample to C3 as stated: with no filter set and the container `web`
running, a start event for `web` starts a second task while the first is still
active; the two tasks have the same container id and the same log file. -/
theorem C3_counterexample :
    (main (plainWorld [webContainer])
        [Occurrence.eventRecv (startEvent webContainer.ID (ascii "web"))]).status
      = Status.running
    ∧ (main (plainWorld [webContainer])
        [Occurrence.eventRecv (startEvent webContainer.ID (ascii "web"))]).tasks.map
          Task.containerID
      = [webContainer.ID, webContainer.ID]
    ∧ (main (plainWorld [webContainer])
        [Occurrence.eventRecv (startEvent webContainer.ID (ascii "web"))]).tasks.map
          (fun t => (streamLogs t none none false).writer.Filename)
      = [ascii "./logs/web.log", ascii "./logs/web.log"] := by
  decide

/-- Claim C3, amended: in every state reached from startup by a discovery pass
followed by any sequence of start events (no task having ended), when the
listed containers and the start events carry pairwise distinct ids, no two
started tasks have the same container id; and when they carry pairwise
distinct names, no two started tasks write to the same log file. -/
theorem C3_distinct_ids_give_distinct_tasks (w : World) (cs : List Container)
    (script : List Occurrence) (hls : w.listing = Except.ok cs) :
    ((cs.map Container.ID ++ (startEvents script).map (fun e => e.Actor.ID)).Nodup →
        ((main w script).tasks.map Task.containerID).Nodup)
    ∧ ((cs.map containerName ++ (startEvents script).map eventName).Nodup →
        ∀ (attachErr copyErr : GoError) (ctxCancelled : Bool),
          ((main w script).tasks.map
            (fun t => (streamLogs t attachErr copyErr ctxCancelled).writer.Filename)).Nodup) := by
  obtain ⟨l1, l2, hl1, hl2, ht⟩ := main_tasks w cs script hls
  constructor
  · intro hnd
    have hsub : ((main w script).tasks.map Task.containerID).Sublist
        (cs.map Container.ID ++ (startEvents script).map (fun e => e.Actor.ID)) := by
      rw [ht, List.map_append, List.map_map, List.map_map]
      exact List.Sublist.append (hl1.map _) (hl2.map _)
    exact hnd.sublist hsub
  · intro hnd attachErr copyErr ctxCancelled
    have hsub : ((main w script).tasks.map Task.containerName).Sublist
        (cs.map containerName ++ (startEvents script).map eventName) := by
      rw [ht, List.map_append, List.map_map, List.map_map]
      exact List.Sublist.append (hl1.map _) (hl2.map _)
    have hnames := hnd.sublist hsub
    have hfile : (main w script).tasks.map
          (fun t => (streamLogs t attachErr copyErr ctxCancelled).writer.Filename)
        = ((main w script).tasks.map Task.containerName).map
            (sprintfLogFile (readConfig w.env).logDir) := by
      rw [List.map_map]
      apply List.map_congr_left
      intro t htm
      simp only [streamLogs_writer, Function.comp]
      rw [(main_task_config w script t htm).1]
    rw [hfile]
    exact hnames.map (sprintfLogFile_injective _)

/-- Witness of C3 (amended): `web` and `db` running and a start event for a
third container; the three tasks have three different ids. -/
theorem C3_witness :
    ((main (plainWorld [webContainer, dbContainer])
        [Occurrence.eventRecv (startEvent (ascii "0a1b2c3d4e5f60718293") (ascii "cache"))]).tasks.map
      Task.containerID).Nodup :=
  (C3_distinct_ids_give_distinct_tasks (plainWorld [webContainer, dbContainer])
    [webContainer, dbContainer]
    [Occurrence.eventRecv (startEvent (ascii "0a1b2c3d4e5f60718293") (ascii "cache"))] rfl).1
    (by decide)

/-- Counterexample to C4 as stated: `9223372036854775808` is the decimal
representation of the positive integer 2^63, and `getEnvInt` returns the
default for it, not 2^63. -/
theorem C4_counterexample :
    decimal (2 ^ 63) = ascii "9223372036854775808"
    ∧ getEnvInt (envOf [(MAX_LOG_SIZE_MB, ascii "9223372036854775808")]) MAX_LOG_SIZE_MB 10
        = 10 := by
  constructor
  · rw [show decimal (2 ^ 63)
        = [57, 50, 50, 51, 51, 55, 50, 48, 51, 54, 56, 53, 52, 55, 55, 53, 56, 48, 56] by
      norm_num [decimal]]
    decide
  · decide

/-- Claim C4, amended: `getEnvInt(key, def)` returns `def` when the variable is
unset or empty; returns `n` when the value is the decimal representation of a
positive integer `n` below 2^63 (the range of a 64-bit `int`), and `def` when
`n` is 2^63 or more; returns `def` when the value is `0`, a minus sign followed
by anything, has no digit at all, or starts with a graphic ASCII byte that is
neither a digit nor a sign; what it returns is always `def` or a positive
integer below 2^63.  Consequently, with `MAX_LOG_SIZE_MB`,
`MAX_BACKUPS` and `MAX_AGE_DAYS` unset, every task that `main` starts is given
the rotation policy (10, 5, 30). -/
theorem C4_getEnvInt_defaults_and_range (w : World) (key : GoString) (dflt : Int) :
    (w.env key = [] → getEnvInt w.env key dflt = dflt)
    ∧ (∀ n : Nat, 0 < n → n < 2 ^ 63 → w.env key = decimal n →
        getEnvInt w.env key dflt = (n : Int))
    ∧ (∀ n : Nat, 2 ^ 63 ≤ n → w.env key = decimal n → getEnvInt w.env key dflt = dflt)
    ∧ (w.env key = decimal 0 → getEnvInt w.env key dflt = dflt)
    ∧ (∀ rest, w.env key = 45 :: rest → getEnvInt w.env key dflt = dflt)
    ∧ ((∀ b ∈ w.env key, isDigit b = false) → getEnvInt w.env key dflt = dflt)
    ∧ (∀ b rest, w.env key = b :: rest → 33 ≤ b → b ≤ 127 → isDigit b = false →
        b ≠ 43 → b ≠ 45 → getEnvInt w.env key dflt = dflt)
    ∧ (getEnvInt w.env key dflt = dflt
        ∨ (0 < getEnvInt w.env key dflt ∧ getEnvInt w.env key dflt < 2 ^ 63))
    ∧ (w.env MAX_LOG_SIZE_MB = [] → w.env MAX_BACKUPS = [] → w.env MAX_AGE_DAYS = [] →
        ∀ script, ∀ t ∈ (main w script).tasks,
          t.maxSize = 10 ∧ t.maxBackups = 5 ∧ t.maxAge = 30) := by
  have hempty : ∀ k d, w.env k = [] → getEnvInt w.env k d = d := by
    intro k d h
    rw [getEnvInt_of_scan, if_pos h]
  refine ⟨hempty key dflt, ?_, ?_, ?_, ?_, ?_, ?_, ?_, ?_⟩
  · intro n hpos hlt h
    rw [getEnvInt_decimal w.env key dflt n h, if_pos ⟨hpos, hlt⟩]
  · intro n hge h
    rw [getEnvInt_decimal w.env key dflt n h, if_neg (fun hc => by omega)]
  · intro h
    rw [getEnvInt_decimal w.env key dflt 0 h, if_neg (fun hc => by omega)]
  · intro rest h
    rw [getEnvInt_of_scan, h, if_neg (by simp)]
    cases hs : scanInt (45 :: rest) with
    | none => rfl
    | some x =>
      have hx := scanInt_minus rest x hs
      exact if_neg (by omega)
  · intro h
    rw [getEnvInt_of_scan, scanInt_of_no_digit _ h]
    split <;> rfl
  · intro b rest h h33 h127 hnd h43 h45
    rw [getEnvInt_of_scan, h, if_neg (by simp), scanInt_of_other_head b rest h33 h127 hnd h43 h45]
  · rw [getEnvInt_of_scan]
    by_cases he : w.env key = []
    · left; rw [if_pos he]
    · rw [if_neg he]
      cases hs : scanInt (w.env key) with
      | none => left; rfl
      | some x =>
        by_cases hx : x > 0
        · right
          have hres : (match some x with
              | some x => if x > 0 then x else dflt
              | none => dflt) = x := if_pos hx
          rw [hres]
          exact ⟨hx, (scanInt_range _ x hs).2⟩
        · left; exact if_neg hx
  · intro hs hb ha script t ht
    obtain ⟨_, h2, h3, h4⟩ := main_task_config w script t ht
    rw [h2, h3, h4]
    exact ⟨hempty _ _ hs, hempty _ _ hb, hempty _ _ ha⟩

/-- Witness of C4 (amended): `MAX_LOG_SIZE_MB=25` gives 25, and with nothing set
the task of `web` gets the policy (10, 5, 30). -/
theorem C4_witness :
    getEnvInt (envOf [(MAX_LOG_SIZE_MB, ascii "25")]) MAX_LOG_SIZE_MB 10 = 25
    ∧ (main (plainWorld [webContainer]) []).tasks.map
        (fun t => (t.maxSize, t.maxBackups, t.maxAge)) = [(10, 5, 30)] := by
  refine ⟨?_, by decide⟩
  exact (C4_getEnvInt_defaults_and_range
    { env := envOf [(MAX_LOG_SIZE_MB, ascii "25")], mkdirErr := none, clientErr := none,
      listing := Except.ok [] } MAX_LOG_SIZE_MB 10).2.1 25 (by norm_num) (by norm_num)
    (by
      rw [show decimal 25 = [50, 53] by norm_num [decimal]]
      decide)

/-- Claim C5: for every log directory and container name, the sink that
`streamLogs` builds is bound to the path `logDir + "/" + containerName + ".log"`,
carries `maxSize`, `maxBackups` and `maxAge` unchanged and has compression on;
and for every task that `main` starts, `logDir` is `./logs` when `LOG_DIR` is
unset or empty and the value of `LOG_DIR` otherwise, and the three numbers are
those read from the environment. -/
theorem C5_sink_path_and_policy (w : World) (script : List Occurrence) (t : Task)
    (attachErr copyErr : GoError) (ctxCancelled : Bool) :
    (streamLogs t attachErr copyErr ctxCancelled).writer =
        { Filename := t.logDir ++ ascii "/" ++ t.containerName ++ ascii ".log"
          MaxSize := t.maxSize
          MaxBackups := t.maxBackups
          MaxAge := t.maxAge
          Compress := true }
    ∧ (t ∈ (main w script).tasks →
        (streamLogs t attachErr copyErr ctxCancelled).writer =
          { Filename :=
              (if w.env LOG_DIR = [] then ascii "./logs" else w.env LOG_DIR)
                ++ ascii "/" ++ t.containerName ++ ascii ".log"
            MaxSize := getEnvInt w.env MAX_LOG_SIZE_MB 10
            MaxBackups := getEnvInt w.env MAX_BACKUPS 5
            MaxAge := getEnvInt w.env MAX_AGE_DAYS 30
            Compress := true }) := by
  have hslash : ascii "/" = slash := by decide
  refine ⟨by rw [streamLogs_writer, hslash]; rfl, ?_⟩
  intro ht
  obtain ⟨h1, h2, h3, h4⟩ := main_task_config w script t ht
  rw [streamLogs_writer, hslash, h1, h2, h3, h4]
  rfl

/-- Witness of C5: in the scenario of the spec (no `LOG_DIR`, no limits set) the
task of `web` writes to `./logs/web.log` with the policy (10, 5, 30) and
compression. -/
theorem C5_witness :
    (streamLogs (goStreamLogs (readConfig scenarioWorld.env) webContainer.ID (ascii "web"))
        none none false).writer =
      { Filename := ascii "./logs/web.log"
        MaxSize := 10
        MaxBackups := 5
        MaxAge := 30
        Compress := true } := by
  have h := (C5_sink_path_and_policy scenarioWorld []
    (goStreamLogs (readConfig scenarioWorld.env) webContainer.ID (ascii "web"))
    none none false).2 (by decide)
  rw [h]
  decide

/-- Claim C6: in the watch loop, receiving from the error channel never ends
the loop and starts no task.  With the context not cancelled and a non-nil
error, exactly one line `Error watching Docker events: ...` is printed; with
the context cancelled, or a nil error, nothing is printed.  No turn of the loop
makes `main` return except the cancellation arm taken with the context
cancelled, and a loop that has ended with an exit code has ended that way, with
code 0. -/
theorem C6_event_error_never_ends_loop (cfg : Config) (st : State) (err : GoError)
    (hrun : st.status = Status.running) :
    (watchStep cfg st (Occurrence.errRecv err)).status = Status.running
    ∧ (watchStep cfg st (Occurrence.errRecv err)).tasks = st.tasks
    ∧ (watchStep cfg st (Occurrence.errRecv err)).cancelled = st.cancelled
    ∧ (∀ msg, err = some msg → st.cancelled = false →
        (watchStep cfg st (Occurrence.errRecv err)).out
          = st.out ++ [println [ascii "Error watching Docker events:", msg]])
    ∧ (st.cancelled = true → (watchStep cfg st (Occurrence.errRecv err)).out = st.out)
    ∧ (err = none → (watchStep cfg st (Occurrence.errRecv err)).out = st.out)
    ∧ (∀ o code, (watchStep cfg st o).status = Status.exited code →
        o = Occurrence.ctxDone ∧ st.cancelled = true ∧ code = 0)
    ∧ (∀ script code, (watchLoop cfg script st).status = Status.exited code →
        code = 0 ∧ EndsByCancellation st.cancelled script) := by
  refine ⟨?_, ?_, ?_, ?_, ?_, ?_, ?_, ?_⟩
  · cases err with
    | none => rw [watchStep_errRecv_none]; exact hrun
    | some msg => rw [watchStep_errRecv_some]; split <;> exact hrun
  · cases err with
    | none => rw [watchStep_errRecv_none]
    | some msg => rw [watchStep_errRecv_some]; split <;> rfl
  · cases err with
    | none => rw [watchStep_errRecv_none]
    | some msg => rw [watchStep_errRecv_some]; split <;> rfl
  · intro msg he hc
    rw [he, watchStep_errRecv_some]
    simp [hc]
  · intro hc
    cases err with
    | none => rw [watchStep_errRecv_none]
    | some msg => rw [watchStep_errRecv_some]; simp [hc]
  · intro he
    rw [he, watchStep_errRecv_none]
  · intro o code h
    rcases watchStep_cases cfg st o hrun with ⟨ho, hc, hst⟩ | ⟨_, _, hst | ⟨hst, _⟩⟩
    · rw [hst] at h
      simp only [Status.exited.injEq] at h
      exact ⟨ho, hc, h.symm⟩
    · rw [hst] at h; simp at h
    · rw [hst] at h; simp at h
  · intro script code h
    exact (watchLoop_status cfg script st hrun).1 code h

/-- Witness of C6: two errors, one before and one after the signal; the first
is reported, the second is not, and the loop is still running. -/
theorem C6_witness :
    (main (plainWorld [])
        [Occurrence.errRecv (some (ascii "EOF")), Occurrence.signal,
         Occurrence.errRecv (some (ascii "context canceled"))]).status = Status.running
    ∧ (main (plainWorld [])
        [Occurrence.errRecv (some (ascii "EOF")), Occurrence.signal,
         Occurrence.errRecv (some (ascii "context canceled"))]).out
      = [ascii "Error watching Docker events: EOF\n", ascii "Shutting down...\n"]
    ∧ (watchStep (readConfig (envOf []))
        { out := [], tasks := [], cancelled := false, status := Status.running }
        (Occurrence.errRecv (some (ascii "EOF")))).status = Status.running := by
  refine ⟨by decide, by decide, ?_⟩
  exact (C6_event_error_never_ends_loop (readConfig (envOf []))
    { out := [], tasks := [], cancelled := false, status := Status.running }
    (some (ascii "EOF")) rfl).1

/-- Claim C7: for a container id of at least 12 bytes, `streamLogs` prints its
`Logging container` line and attaches once.  When attaching fails it prints one
error line naming the container id and returns: no copy, no close.  When
attaching succeeds it copies once into the sink and closes the stream last on
every path; between the two it prints one copy-error line naming the container
id exactly when the copy returned an error and the context is not cancelled. -/
theorem C7_streamLogs_outcomes (t : Task) (attachErr copyErr : GoError) (ctxCancelled : Bool)
    (hid : 12 ≤ t.containerID.length) :
    (∀ err, attachErr = some err →
      (streamLogs t attachErr copyErr ctxCancelled).trace =
        [Effect.print (printfLogging t.containerName (t.containerID.take 12)
            (sprintfLogFile t.logDir t.containerName)),
         Effect.attach t.containerID,
         Effect.print (println [ascii "Error attaching to logs for", t.containerID,
            ascii ":", err])])
    ∧ (∀ err, attachErr = none → copyErr = some err → ctxCancelled = false →
      (streamLogs t attachErr copyErr ctxCancelled).trace =
        [Effect.print (printfLogging t.containerName (t.containerID.take 12)
            (sprintfLogFile t.logDir t.containerName)),
         Effect.attach t.containerID,
         Effect.copy (streamLogs t attachErr copyErr ctxCancelled).writer,
         Effect.print (println [ascii "Error copying logs for", t.containerID,
            ascii ":", err]),
         Effect.close])
    ∧ (attachErr = none → (copyErr = none ∨ ctxCancelled = true) →
      (streamLogs t attachErr copyErr ctxCancelled).trace =
        [Effect.print (printfLogging t.containerName (t.containerID.take 12)
            (sprintfLogFile t.logDir t.containerName)),
         Effect.attach t.containerID,
         Effect.copy (streamLogs t attachErr copyErr ctxCancelled).writer,
         Effect.close]) := by
  refine ⟨?_, ?_, ?_⟩
  · intro err ha
    subst ha
    simp [streamLogs, slice12, hid]
  · intro err ha hc hx
    subst ha hc hx
    simp [streamLogs, slice12, hid]
  · intro ha hc
    subst ha
    rcases hc with hc | hc
    · subst hc
      simp [streamLogs, slice12, hid]
    · subst hc
      cases copyErr <;> simp [streamLogs, slice12, hid]

/-- Witness of C7: the task of `web`, attached, whose copy ends with an error
after cancellation: logging line, attach, copy, close, and no error line. -/
theorem C7_witness :
    (streamLogs (goStreamLogs (readConfig (envOf [])) webContainer.ID (ascii "web"))
        none (some (ascii "context canceled")) true).trace =
      [Effect.print (ascii "Logging container web (4f2a9c0d1e3b) " ++ [226, 134, 146]
          ++ ascii " ./logs/web.log\n"),
       Effect.attach webContainer.ID,
       Effect.copy
        { Filename := ascii "./logs/web.log"
          MaxSize := 10
          MaxBackups := 5
          MaxAge := 30
          Compress := true },
       Effect.close] := by
  rw [(C7_streamLogs_outcomes
    (goStreamLogs (readConfig (envOf [])) webContainer.ID (ascii "web"))
    none (some (ascii "context canceled")) true (by decide)).2.2 rfl (Or.inr rfl)]
  decide

/-- Counterexample to C8 as stated: with `TARGET_CONTAINERS=web`, the three
startup calls succeeding, nothing listed and no signal, a start event whose id
has 4 bytes and whose name is not `web` makes `e.Actor.ID[:12]` panic: `main`
ends without cancellation and not with code 0. -/
theorem C8_counterexample :
    (main
      { env := envOf [(TARGET_CONTAINERS, ascii "web")], mkdirErr := none, clientErr := none,
        listing := Except.ok [] }
      [Occurrence.eventRecv (startEvent (ascii "4f2a") (ascii "db"))])
    = { out := [], tasks := [], cancelled := false, status := Status.panicked } := by
  decide

/-- Claim C8, amended: `main` exits with code 1 exactly when the creation of the log
directory, the construction of the Docker client or the first listing fails,
and then it has printed the one error line of that failure and started no
task.  When the three succeed and every id has at least 12 bytes and every
listed container a name, `main` is running or has exited with code 0, it has
exited exactly when the select took the cancellation arm after a signal had
cancelled the root context, and no task it started panics.  Without that
condition on ids and names `main` may also end by a run-time panic, but
whenever it has exited with a code after the three succeeded, the code is 0 and
the select took the cancellation arm after a signal. -/
theorem C8_exit_codes (w : World) (script : List Occurrence) :
    ((main w script).status = Status.exited 1 ↔
        (w.mkdirErr ≠ none ∨ w.clientErr ≠ none ∨ ∃ err, w.listing = Except.error err))
    ∧ (∀ err, w.mkdirErr = some err →
        main w script =
          { out := [println [ascii "Error creating log dir:", err]]
            tasks := [], cancelled := false, status := Status.exited 1 })
    ∧ (∀ err, w.mkdirErr = none → w.clientErr = some err →
        main w script =
          { out := [println [ascii "Error creating Docker client:", err]]
            tasks := [], cancelled := false, status := Status.exited 1 })
    ∧ (∀ err, w.mkdirErr = none → w.clientErr = none → w.listing = Except.error err →
        main w script =
          { out := [println [ascii "Error listing containers:", err]]
            tasks := [], cancelled := false, status := Status.exited 1 })
    ∧ (∀ cs, w.mkdirErr = none → w.clientErr = none → w.listing = Except.ok cs →
        (∀ c ∈ cs, 12 ≤ c.ID.length ∧ c.Names ≠ []) →
        (∀ e ∈ startEvents script, 12 ≤ e.Actor.ID.length) →
        ((main w script).status = Status.running ∨ (main w script).status = Status.exited 0)
        ∧ ((main w script).status = Status.exited 0 ↔ EndsByCancellation false script)
        ∧ (∀ t ∈ (main w script).tasks, ∀ (attachErr copyErr : GoError) (ctxCancelled : Bool),
            Effect.crash ∉ (streamLogs t attachErr copyErr ctxCancelled).trace))
    ∧ (∀ cs code, w.mkdirErr = none → w.clientErr = none → w.listing = Except.ok cs →
        (main w script).status = Status.exited code →
        code = 0 ∧ EndsByCancellation false script) := by
  have h1 : ∀ err, w.mkdirErr = some err →
      main w script =
        { out := [println [ascii "Error creating log dir:", err]]
          tasks := [], cancelled := false, status := Status.exited 1 } := by
    intro err h; simp [main, h, fatal]
  have h2 : ∀ err, w.mkdirErr = none → w.clientErr = some err →
      main w script =
        { out := [println [ascii "Error creating Docker client:", err]]
          tasks := [], cancelled := false, status := Status.exited 1 } := by
    intro err h h'; simp [main, h, h', fatal]
  have h3 : ∀ err, w.mkdirErr = none → w.clientErr = none → w.listing = Except.error err →
      main w script =
        { out := [println [ascii "Error listing containers:", err]]
          tasks := [], cancelled := false, status := Status.exited 1 } := by
    intro err h h' h''; simp [main, h, h', h'', fatal]
  have h5 : ∀ cs code, w.mkdirErr = none → w.clientErr = none → w.listing = Except.ok cs →
      (main w script).status = Status.exited code →
      code = 0 ∧ EndsByCancellation false script := by
    intro cs code hmk hcl hls hex
    rw [main_started w cs script hmk hcl hls] at hex
    have hc : (discoverLoop (readConfig w.env) cs
        { out := [], tasks := [], cancelled := false, status := Status.running }).cancelled
          = false := by
      have hinv : ∀ (l : List Container) (st : State),
          (discoverLoop (readConfig w.env) l st).cancelled = st.cancelled := by
        intro l
        induction l with
        | nil => intro st; rfl
        | cons c rest ih =>
          intro st
          by_cases hn : c.Names = []
          · unfold discoverLoop
            simp [hn]
          · rw [discoverLoop_cons _ c rest st hn]
            cases discoveryCond (readConfig w.env).targetContainers (containerName c) c.ID with
            | none => rfl
            | some b =>
              cases b with
              | false => exact ih st
              | true => exact ih _
      exact hinv cs _
    rcases discoverLoop_status (readConfig w.env) cs
      { out := [], tasks := [], cancelled := false, status := Status.running } with hd | hd
    · have h := (watchLoop_status (readConfig w.env) script _ hd).1 code hex
      rw [hc] at h
      exact h
    · have hnr : (discoverLoop (readConfig w.env) cs
          { out := [], tasks := [], cancelled := false,
            status := Status.running }).status ≠ Status.running := by
        rw [hd]; simp
      rw [watchLoop_of_not_running _ _ _ hnr, hd] at hex
      simp at hex
  refine ⟨?_, h1, h2, h3, ?_, h5⟩
  · cases hmk : w.mkdirErr with
    | some err => simp [h1 err hmk]
    | none =>
      cases hcl : w.clientErr with
      | some err => simp [h2 err hmk hcl]
      | none =>
        cases hls : w.listing with
        | error err => simp [h3 err hmk hcl hls]
        | ok cs =>
          rw [main_started w cs script hmk hcl hls]
          simp only [ne_eq, not_true_eq_false, false_or, exists_false, iff_false,
            reduceCtorEq]
          intro hex
          rcases discoverLoop_status (readConfig w.env) cs
            { out := [], tasks := [], cancelled := false, status := Status.running }
            with hd | hd
          · have := ((watchLoop_status (readConfig w.env) script _ hd).1 1 hex).1
            omega
          · have hnr : (discoverLoop (readConfig w.env) cs
                { out := [], tasks := [], cancelled := false,
                  status := Status.running }).status ≠ Status.running := by
              rw [hd]; simp
            rw [watchLoop_of_not_running _ _ _ hnr, hd] at hex
            simp at hex
  · intro cs hmk hcl hls hwf hev
    have htasks : ∀ t ∈ (main w script).tasks,
        ∀ (attachErr copyErr : GoError) (ctxCancelled : Bool),
          Effect.crash ∉ (streamLogs t attachErr copyErr ctxCancelled).trace := by
      intro t ht attachErr copyErr ctxCancelled
      rw [streamLogs_crash_iff]
      obtain ⟨l1, l2, hl1, hl2, hmt⟩ := main_tasks w cs script hls
      rw [hmt, List.mem_append, List.mem_map, List.mem_map] at ht
      rcases ht with ⟨c, hc, rfl⟩ | ⟨e, he, rfl⟩
      · have := (hwf c (hl1.subset hc)).1
        simp only [goStreamLogs]
        omega
      · have := hev e (hl2.subset he)
        simp only [goStreamLogs]
        omega
    rw [← and_assoc]
    refine ⟨?_, htasks⟩
    rw [main_started w cs script hmk hcl hls, discoverLoop_wellFormed _ _ _ hwf]
    obtain ⟨hexit, hrest⟩ := watchLoop_status (readConfig w.env) script
      { out := [], tasks := [] ++
          (cs.filter (fun c => decide ((readConfig w.env).targetContainers = []
              ∨ containerName c ∈ (readConfig w.env).targetContainers
              ∨ c.ID.take 12 ∈ (readConfig w.env).targetContainers))).map
            (fun c => goStreamLogs (readConfig w.env) c.ID (containerName c))
        cancelled := false, status := Status.running } rfl
    obtain ⟨hnp, hend⟩ := hrest hev
    constructor
    · revert hexit hnp
      generalize (watchLoop (readConfig w.env) script _).status = s
      intro hexit hnp
      cases s with
      | running => left; rfl
      | exited code => right; rw [(hexit code rfl).1]
      | panicked => exact absurd rfl hnp
    · exact ⟨fun h => (hexit 0 h).2, hend⟩

/-- Witness of C8 (amended): in the scenario of the spec, a signal followed by the
cancellation arm ends `main` with code 0 after `Shutting down...`. -/
theorem C8_witness :
    (main scenarioWorld [Occurrence.signal, Occurrence.ctxDone]).status = Status.exited 0
    ∧ (main scenarioWorld [Occurrence.signal, Occurrence.ctxDone]).out
        = [ascii "Shutting down...\n"] := by
  refine ⟨?_, by decide⟩
  exact ((C8_exit_codes scenarioWorld [Occurrence.signal, Occurrence.ctxDone]).2.2.2.2.1
    [webContainer, dbContainer] rfl rfl rfl (by decide) (by decide)).2.1.2
    ⟨[Occurrence.signal], [], rfl, Or.inr (by simp)⟩

/-- Counterexample to C9 as stated: a listed container whose first name is
`//web` is known to the discovery pass as `/web`, which starts with `/`. -/
theorem C9_counterexample :
    (main (plainWorld [doubleSlashContainer]) []).tasks.map Task.containerName = [ascii "/web"]
    ∧ ascii "/web" = 47 :: ascii "web"
    ∧ (main (plainWorld [doubleSlashContainer]) []).tasks.map
        (fun t => (streamLogs t none none false).writer.Filename) = [ascii "./logs//web.log"] := by
  decide

/-- Claim C9, amended: for a listed container with first name `n0`, the name
used for filter matching and for the log file name is `n0` with one leading
`/` removed, and `n0` itself when it has no leading `/`; that name starts with
`/` exactly when `n0` starts with `//`. -/
theorem C9_name_trimmed_once (cfg : Config) (c : Container) (n0 : GoString)
    (ns : List GoString) (rest : List Container) (st : State) (hN : c.Names = n0 :: ns) :
    (∀ r, n0 = 47 :: r → containerName c = r)
    ∧ ((∀ r, n0 ≠ 47 :: r) → containerName c = n0)
    ∧ ((∃ r, containerName c = 47 :: r) ↔ (∃ r, n0 = 47 :: 47 :: r))
    ∧ discoverLoop cfg (c :: rest) st =
        (match discoveryCond cfg.targetContainers (containerName c) c.ID with
          | none => { st with status := Status.panicked }
          | some true =>
            discoverLoop cfg rest
              { st with tasks := st.tasks ++ [goStreamLogs cfg c.ID (containerName c)] }
          | some false => discoverLoop cfg rest st)
    ∧ ∀ (attachErr copyErr : GoError) (ctxCancelled : Bool),
        (streamLogs (goStreamLogs cfg c.ID (containerName c))
            attachErr copyErr ctxCancelled).writer.Filename
          = cfg.logDir ++ ascii "/" ++ containerName c ++ ascii ".log" := by
  have hname : containerName c = stringsTrimPrefix n0 slash := by simp [containerName, hN]
  have hslash : ascii "/" = slash := by decide
  have hne : c.Names ≠ [] := by rw [hN]; simp
  refine ⟨?_, ?_, ?_, discoverLoop_cons cfg c rest st hne, ?_⟩
  · intro r hr
    rw [hname, hr]
    simp [stringsTrimPrefix, slash]
  · intro hr
    rw [hname]
    cases n0 with
    | nil => simp [stringsTrimPrefix, slash]
    | cons b r =>
      have hb : b ≠ 47 := fun h => hr r (by rw [h])
      have hb2 : ¬ 47 = b := fun h => hb h.symm
      simp [stringsTrimPrefix, slash, hb2]
  · rw [hname]
    cases n0 with
    | nil => simp [stringsTrimPrefix, slash]
    | cons b r =>
      by_cases hb : 47 = b
      · subst hb
        simp [stringsTrimPrefix, slash]
      · have hb3 : ¬ b = 47 := fun h => hb h.symm
        simp [stringsTrimPrefix, slash, hb, hb3]
  · intro attachErr copyErr ctxCancelled
    rw [streamLogs_writer, hslash]
    rfl

/-- Witness of C9 (amended): the listed name `/web` is known as `web`. -/
theorem C9_witness :
    containerName webContainer = ascii "web"
    ∧ ¬ (∃ r, containerName webContainer = 47 :: r) := by
  have h := C9_name_trimmed_once (readConfig (envOf [])) webContainer (ascii "/web") [] []
    { out := [], tasks := [], cancelled := false, status := Status.running } rfl
  refine ⟨h.1 (ascii "web") (by decide), ?_⟩
  rw [h.2.2.1]
  rintro ⟨r, hr⟩
  revert hr
  simp [ascii]

/-- Claim C10: when every listed container has an id of at least 12 bytes and a
non-empty `Names`, and every start event an id of at least 12 bytes, no index
or slice of the program is out of range: `main` does not panic, in the
discovery pass or on a start event, and no task it started panics in
`streamLogs`.  Without the precondition, the slice of the filter is out of
range only when the token list is non-empty, the name did not match and the id
is short, while the slice of `streamLogs` is out of range for every short id. -/
theorem C10_no_slice_out_of_range (w : World) (script : List Occurrence)
    (hwf : ∀ cs, w.listing = Except.ok cs → ∀ c ∈ cs, 12 ≤ c.ID.length ∧ c.Names ≠ [])
    (hev : ∀ e ∈ startEvents script, 12 ≤ e.Actor.ID.length) :
    (main w script).status ≠ Status.panicked
    ∧ (∀ t ∈ (main w script).tasks, ∀ (attachErr copyErr : GoError) (ctxCancelled : Bool),
        Effect.crash ∉ (streamLogs t attachErr copyErr ctxCancelled).trace)
    ∧ (∀ toks name id,
        discoveryCond toks name id = none ↔ (toks ≠ [] ∧ name ∉ toks ∧ id.length < 12))
    ∧ (∀ name id,
        eventCond (readConfig w.env).targetContainersEnv (readConfig w.env).targetContainers
            name id = none
          ↔ ((readConfig w.env).targetContainers ≠ []
              ∧ name ∉ (readConfig w.env).targetContainers ∧ id.length < 12))
    ∧ (∀ (t : Task) (attachErr copyErr : GoError) (ctxCancelled : Bool),
        Effect.crash ∈ (streamLogs t attachErr copyErr ctxCancelled).trace
          ↔ t.containerID.length < 12) := by
  refine ⟨?_, ?_, discoveryCond_eq_none_iff, ?_, streamLogs_crash_iff⟩
  · cases hmk : w.mkdirErr with
    | some err => simp [main, hmk, fatal]
    | none =>
      cases hcl : w.clientErr with
      | some err => simp [main, hmk, hcl, fatal]
      | none =>
        cases hls : w.listing with
        | error err => simp [main, hmk, hcl, hls, fatal]
        | ok cs =>
          rw [main_started w cs script hmk hcl hls, discoverLoop_wellFormed _ _ _ (hwf cs hls)]
          exact ((watchLoop_status (readConfig w.env) script _ rfl).2 hev).1
  · intro t ht attachErr copyErr ctxCancelled
    rw [streamLogs_crash_iff]
    cases hls : w.listing with
    | error err =>
      have : (main w script).tasks = [] := by
        unfold main
        cases w.mkdirErr <;> cases w.clientErr <;> simp [hls, fatal]
      rw [this] at ht
      exact absurd ht (List.not_mem_nil _)
    | ok cs =>
      obtain ⟨l1, l2, hl1, hl2, htasks⟩ := main_tasks w cs script hls
      rw [htasks, List.mem_append, List.mem_map, List.mem_map] at ht
      rcases ht with ⟨c, hc, rfl⟩ | ⟨e, he, rfl⟩
      · have := (hwf cs hls c (hl1.subset hc)).1
        simp only [goStreamLogs]
        omega
      · have := hev e (hl2.subset he)
        simp only [goStreamLogs]
        omega
  · intro name id
    have htc : (readConfig w.env).targetContainers
        = parseTargets (readConfig w.env).targetContainersEnv := rfl
    rw [eventCond_eq_none_iff, htc, ne_eq, ne_eq, parseTargets_eq_nil_iff]

/-- Witness of C10: the scenario of the spec with a start event for `db` runs
without panic; and with no filter set, a listed container with a 4-byte id gets
a task from `main`, whose `streamLogs` then panics on its slice. -/
theorem C10_witness :
    (main scenarioWorld [Occurrence.eventRecv (startEvent dbContainer.ID (ascii "db"))]).status
      ≠ Status.panicked
    ∧ (main (plainWorld [shortContainer]) []).status = Status.running
    ∧ (main (plainWorld [shortContainer]) []).tasks.map
        (fun t => (streamLogs t none none false).trace) = [[Effect.crash]] := by
  refine ⟨?_, by decide, by decide⟩
  exact (C10_no_slice_out_of_range scenarioWorld
    [Occurrence.eventRecv (startEvent dbContainer.ID (ascii "db"))]
    (by
      intro cs h
      have h2 : cs = [webContainer, dbContainer] := by
        simp only [scenarioWorld, Except.ok.injEq] at h
        exact h.symm
      subst h2
      decide)
    (by decide)).1

end DockerLogger
